import Mathlib

/-!
Verification of the cavibe audio-visualizer core: the spectral analyzer
(src/audio/fft.rs) and the pixel renderer (src/renderer/mod.rs, layout.rs,
styles.rs, text.rs), shallowly embedded in Lean 4.

Modelling conventions.

Machine floats (f32) are modelled as exact rationals.  The embedding keeps
every structural float operation of the source (multiplication, division,
min, the integer casts) but ignores rounding error; f32 literals such as
0.02 are taken at face value.  The division 0.0 / 0.0, which in f32 yields
NaN, shows up in exactly one place of the source (the mean of an empty
magnitude list); the means are therefore modelled as Option values, none
standing for the non-finite f32 result.

Transcendental operations (powf on the log-frequency axis, the cosine of
the Hann window, the magnitude sqrt of FFT bins, the FFT itself, sin and
cos in the radial and text renderers, the HSL to sRGB conversion of the
palette crate) have no exact rational counterpart; they are made explicit
parameters (oracles), never silently dropped.  No claim below depends on
the values those oracles compute, only on how the surrounding integer and
rational code uses them.

Rust integer casts are kept explicit: "f32 as usize" truncates toward zero
and saturates at 0, "f32 as u8" saturates into [0,255], "isize as usize"
wraps modulo 2 ^ 64.
-/

/-- Rust cast "f32 as usize": truncate toward zero, saturate below at 0. -/
def ratToUsize (q : ℚ) : ℕ := (Rat.floor q).toNat

/-- Rust "f32.ceil() as usize". -/
def ratCeilUsize (q : ℚ) : ℕ := (Rat.ceil q).toNat

/-- Rust cast "f32 as u8": truncate toward zero, saturate into [0, 255]. -/
def ratToU8 (q : ℚ) : ℕ := min (Rat.floor q).toNat 255

/-- Rust cast "f32 as isize": truncate toward zero. -/
def ratTrunc (q : ℚ) : ℤ := if 0 ≤ q then Rat.floor q else Rat.ceil q

/-- Rust f32.round(): round half away from zero. -/
def ratRound (q : ℚ) : ℤ :=
  if 0 ≤ q then Rat.floor (q + 1/2) else Rat.ceil (q - 1/2)

/-- Rust cast "isize as usize": wraps modulo 2 ^ 64. -/
def isizeToUsize (z : ℤ) : ℕ := (z % (2 ^ 64 : ℤ)).toNat

/-- Rust f32 % (remainder with the sign of the dividend, truncated division). -/
def ratFmod (a b : ℚ) : ℚ := a - b * (ratTrunc (a / b) : ℚ)

/-- Rust for-loop range a..b as a list of naturals. -/
def natRange (a b : ℕ) : List ℕ := (List.range (b - a)).map (a + ·)

/-- Rust inclusive integer range a..=b as a list of integers. -/
def intRangeIncl (a b : ℤ) : List ℤ := (List.range (b + 1 - a).toNat).map (a + ·)

/-!
Canvas (src/renderer/mod.rs).

The Vec of bytes is modelled as a total function from byte index to byte
value together with its length (dataLen).  width and height are the
logical dimensions; the constructors below keep the source invariant
dataLen at least width * height * 4.
-/

structure Canvas where
  data : ℕ → ℕ
  dataLen : ℕ
  width : ℕ
  height : ℕ

/-- Canvas::new — a zero-filled buffer of exactly width * height * 4 bytes. -/
def Canvas.new (width height : ℕ) : Canvas :=
  { data := fun _ => 0, dataLen := width * height * 4, width := width, height := height }

/-- Canvas::resize — update the dimensions, growing the buffer only if too small. -/
def Canvas.resize (c : Canvas) (width height : ℕ) : Canvas :=
  let needed := width * height * 4
  { c with width := width, height := height, dataLen := max c.dataLen needed }

/-- Canvas::clear — zero-fill the logical region width * height * 4. -/
def Canvas.clear (c : Canvas) : Canvas :=
  let len := c.width * c.height * 4
  { c with data := fun j => if j < len then 0 else c.data j }

/-- Canvas::put_pixel — premultiplied RGBA write, guarded by the linear byte
index against the buffer length (this is the check of the source, which is
not the same as x < width and y < height). -/
def Canvas.put_pixel (c : Canvas) (x y : ℕ) (r g b : ℕ) (opacity : ℚ) : Canvas :=
  let idx := (y * c.width + x) * 4
  if idx + 3 < c.dataLen then
    { c with data := fun j =>
        if j = idx then ratToU8 ((r : ℚ) * opacity)
        else if j = idx + 1 then ratToU8 ((g : ℚ) * opacity)
        else if j = idx + 2 then ratToU8 ((b : ℚ) * opacity)
        else if j = idx + 3 then ratToU8 (opacity * 255)
        else c.data j }
  else c

/-- Canvas::get_pixel. -/
def Canvas.get_pixel (c : Canvas) (x y : ℕ) : ℕ × ℕ × ℕ × ℕ :=
  let idx := (y * c.width + x) * 4
  if idx + 3 < c.dataLen then
    (c.data idx, c.data (idx + 1), c.data (idx + 2), c.data (idx + 3))
  else (0, 0, 0, 0)

/-- One iteration of the Canvas::write_argb8888 loop: pixel i is re-ordered
from RGBA to B G R A. -/
def argbStep (data : ℕ → ℕ) (d : ℕ → ℕ) (i : ℕ) : ℕ → ℕ :=
  fun j =>
    if j = i * 4 then data (i * 4 + 2)
    else if j = i * 4 + 1 then data (i * 4 + 1)
    else if j = i * 4 + 2 then data (i * 4)
    else if j = i * 4 + 3 then data (i * 4 + 3)
    else d j

/-- The loop of Canvas::write_argb8888 over pixels 0..n. -/
def argbLoop (data : ℕ → ℕ) (dest : ℕ → ℕ) : ℕ → (ℕ → ℕ)
  | 0 => dest
  | n + 1 => argbStep data (argbLoop data dest n) n

/-- Canvas::write_argb8888 — convert the RGBA canvas to ARGB8888 byte order
(B G R A per pixel) into dest, processing exactly width * height pixels. -/
def Canvas.write_argb8888 (c : Canvas) (dest : ℕ → ℕ) : ℕ → ℕ :=
  argbLoop c.data dest (c.width * c.height)

/-!
Configuration types (src/config.rs), restricted to what the renderer reads.
Strings are modelled as lists of characters.
-/

/-- CoordValue — a coordinate in pixels or as a percentage. -/
inductive CoordValue where
  | Pixels (px : ℤ)
  | Percent (pct : ℚ)

/-- CoordValue::resolve. -/
def CoordValue.resolve (v : CoordValue) (total : ℕ) : ℕ :=
  match v with
  | .Pixels px => (max px 0).toNat
  | .Percent pct => ratToUsize ((total : ℚ) * pct / 100)

inductive TextPosition where
  | Top
  | Bottom
  | Center
  | Coordinates (x y : CoordValue)

inductive FontStyle where
  | Normal
  | Bold
  | Ascii
  | Figlet

inductive TextAlignment where
  | Left
  | Center
  | Right

inductive TextAnimation where
  | Scroll
  | Pulse
  | Fade
  | Wave
  | None

structure RgbColor where
  r : ℕ
  g : ℕ
  b : ℕ

structure TextConfig where
  show_title : Bool
  show_artist : Bool
  animation_speed : ℚ
  pulse_intensity : ℚ
  position : TextPosition
  font_style : FontStyle
  alignment : TextAlignment
  animation_style : TextAnimation
  margin_top : ℕ
  margin_bottom : ℕ
  margin_horizontal : ℕ
  title_color : Option RgbColor
  artist_color : Option RgbColor
  background_color : Option RgbColor
  use_color_scheme : Bool

/-- ColorScheme (src/color.rs).  The concrete schemes convert HSL to sRGB via
the external palette crate; the colour computation is kept abstract here as a
pair of colour functions, since no verified property depends on the RGB
values produced, only on where they are written. -/
structure ColorScheme where
  get_color : ℚ → ℚ → ℕ × ℕ × ℕ
  get_text_gradient : ℕ → ℚ → ℚ → List (ℕ × ℕ × ℕ)

/-- Oracle for transcendental f32 operations used by the renderers (sine and
cosine of the radial style and the text animations) and the f32 constants
TAU and FRAC_PI_2. -/
structure TransOracle where
  sinF : ℚ → ℚ
  cosF : ℚ → ℚ
  tauF : ℚ
  fracPi2F : ℚ

/-- FrameData (src/renderer/mod.rs). -/
structure FrameData where
  frequencies : List ℚ
  intensity : ℚ
  track_title : Option (List Char)
  track_artist : Option (List Char)
  time : ℚ

/-- RenderParams (src/renderer/mod.rs). -/
structure RenderParams where
  style : ℕ
  bar_width : ℕ
  bar_spacing : ℕ
  mirror : Bool
  reverse_mirror : Bool
  opacity : ℚ
  color_scheme : ColorScheme
  waveform : List ℚ
  spectrogram_history : List (List ℚ)
  text_config : TextConfig

/-!
Bar layout (src/renderer/layout.rs).
-/

structure BarLayout where
  bars_y_start : ℕ
  bars_height : ℕ
  start_x : ℕ
  slot_width : ℕ
  displayable : ℕ
  render_frequencies : List ℚ

/-- Indexing frequencies[freq_idx.min(frequencies.len() - 1)] of the source. -/
def freqAt (frequencies : List ℚ) (freq_idx : ℕ) : ℚ :=
  frequencies.getD (min freq_idx (frequencies.length - 1)) 0

/-- compute_bar_layout — the shared per-frame geometry. -/
def compute_bar_layout (width height : ℕ) (frequencies : List ℚ)
    (params : RenderParams) : Option BarLayout :=
  if frequencies.isEmpty then none
  else
    let bar_count := min frequencies.length width
    let text_height :=
      if params.text_config.show_title || params.text_config.show_artist then
        60 + params.text_config.margin_top + params.text_config.margin_bottom
      else 0
    let yb : ℕ × ℕ :=
      match params.text_config.position with
      | .Top => (text_height, height - text_height)
      | .Bottom => (0, height - text_height)
      | .Center => (0, height)
      | .Coordinates _ _ => (0, height)
    let bars_y_start := yb.1
    let bars_height := yb.2
    if bars_height = 0 then none
    else
      let slot_width := params.bar_width + params.bar_spacing
      let max_bars := width / max slot_width 1
      let displayable := min max_bars bar_count
      if displayable = 0 then none
      else
        let total_width := displayable * slot_width
        let start_x := (width - total_width) / 2
        let render_frequencies : List ℚ :=
          match params.mirror, params.reverse_mirror with
          | true, true =>
              let half := displayable / 2
              ((List.range half).map (fun i =>
                freqAt frequencies (((half - 1 - i) * frequencies.length) / max half 1))) ++
              ((List.range (displayable - half)).map (fun i =>
                freqAt frequencies ((i * frequencies.length) / max (displayable - half) 1)))
          | true, false =>
              let half := displayable / 2
              ((List.range half).map (fun i =>
                freqAt frequencies ((i * frequencies.length) / max half 1))) ++
              ((List.range (displayable - half)).map (fun i =>
                freqAt frequencies (((displayable - half - 1 - i) * frequencies.length) /
                  max (displayable - half) 1)))
          | false, true =>
              (List.range displayable).map (fun i =>
                freqAt frequencies (((displayable - 1 - i) * frequencies.length) /
                  max displayable 1))
          | false, false =>
              (List.range displayable).map (fun i =>
                freqAt frequencies ((i * frequencies.length) / max displayable 1))
        some { bars_y_start := bars_y_start, bars_height := bars_height,
               start_x := start_x, slot_width := slot_width,
               displayable := displayable, render_frequencies := render_frequencies }

/-!
Style renderers (src/renderer/styles.rs).  Rust for-loops become List.foldl
over the corresponding ranges with the canvas as accumulator.
-/

/-- Style 0: Classic vertical bars from bottom. -/
def render_bars_classic (c : Canvas) (layout : BarLayout) (params : RenderParams) : Canvas :=
  (List.range layout.displayable).foldl (fun c0 i =>
    let magnitude := layout.render_frequencies.getD i 0
    let bar_height := ratToUsize (magnitude * (layout.bars_height : ℚ))
    let x_start := layout.start_x + i * layout.slot_width
    let position := (i : ℚ) / (layout.displayable : ℚ)
    (List.range (min bar_height layout.bars_height)).foldl (fun c1 y_offset =>
      let y := layout.bars_y_start + layout.bars_height - 1 - y_offset
      let intensity := (y_offset : ℚ) / (layout.bars_height : ℚ)
      let rgb := params.color_scheme.get_color position intensity
      (List.range params.bar_width).foldl (fun c2 bx =>
        let x := x_start + bx
        if x < c2.width ∧ y < c2.height then
          c2.put_pixel x y rgb.1 rgb.2.1 rgb.2.2 params.opacity
        else c2) c1) c0) c

/-- Style 1: Mirrored bars growing from center. -/
def render_bars_mirrored (c : Canvas) (layout : BarLayout) (params : RenderParams) : Canvas :=
  let center_y := layout.bars_y_start + layout.bars_height / 2
  (List.range layout.displayable).foldl (fun c0 i =>
    let magnitude := layout.render_frequencies.getD i 0
    let half_height := ratToUsize (magnitude * (layout.bars_height : ℚ) / 2)
    let x_start := layout.start_x + i * layout.slot_width
    let position := (i : ℚ) / (layout.displayable : ℚ)
    (List.range (min half_height (layout.bars_height / 2))).foldl (fun c1 (y_offset : ℕ) =>
      let intensity := (y_offset : ℚ) / ((layout.bars_height : ℚ) / 2)
      let rgb := params.color_scheme.get_color position intensity
      let y_up := center_y - y_offset
      let c2 :=
        if layout.bars_y_start ≤ y_up then
          (List.range params.bar_width).foldl (fun cb bx =>
            let x := x_start + bx
            if x < cb.width ∧ y_up < cb.height then
              cb.put_pixel x y_up rgb.1 rgb.2.1 rgb.2.2 params.opacity
            else cb) c1
        else c1
      let y_down := center_y + y_offset
      if y_down < layout.bars_y_start + layout.bars_height then
        (List.range params.bar_width).foldl (fun cb bx =>
          let x := x_start + bx
          if x < cb.width ∧ y_down < cb.height then
            cb.put_pixel x y_down rgb.1 rgb.2.1 rgb.2.2 params.opacity
          else cb) c2
      else c2) c0) c

/-- Style 2: Wave centered on middle row. -/
def render_bars_wave (c : Canvas) (layout : BarLayout) (params : RenderParams) : Canvas :=
  let center_y := layout.bars_y_start + layout.bars_height / 2
  let wave_width := max (params.bar_width / 3) 1
  (List.range layout.displayable).foldl (fun c0 i =>
    let magnitude := layout.render_frequencies.getD i 0
    let wave_height : ℤ := ratTrunc (magnitude * (layout.bars_height : ℚ) / 2)
    let x_start := layout.start_x + i * layout.slot_width
    let position := (i : ℚ) / (layout.displayable : ℚ)
    (intRangeIncl (-wave_height) wave_height).foldl (fun c1 offset =>
      let y := isizeToUsize ((center_y : ℤ) + offset)
      if layout.bars_y_start ≤ y ∧ y < layout.bars_y_start + layout.bars_height ∧
          y < c1.height then
        let intensity := 1 - ((offset.natAbs : ℚ) / ((max wave_height 1 : ℤ) : ℚ))
        let rgb := params.color_scheme.get_color position intensity
        (List.range wave_width).foldl (fun c2 bx =>
          let x := x_start + bx
          if x < c2.width then
            c2.put_pixel x y rgb.1 rgb.2.1 rgb.2.2 (params.opacity * intensity)
          else c2) c1
      else c1) c0) c

/-- Style 3: Dots at peak with trailing dots below.  The trail loop of the
source stops at the first non-positive intensity (a break); the fold carries
a stopped flag to model that exactly. -/
def render_bars_dots (c : Canvas) (layout : BarLayout) (params : RenderParams) : Canvas :=
  let dot_radius := max (params.bar_width / 3) 2
  (List.range layout.displayable).foldl (fun c0 i =>
    let magnitude := layout.render_frequencies.getD i 0
    let peak_y := layout.bars_y_start + layout.bars_height - 1 -
      ratToUsize (magnitude * ((layout.bars_height - 1 : ℕ) : ℚ))
    let x_center := layout.start_x + i * layout.slot_width + params.bar_width / 2
    let position := (i : ℚ) / (layout.displayable : ℚ)
    let rgb := params.color_scheme.get_color position magnitude
    let r2 : ℤ := ((dot_radius * dot_radius : ℕ) : ℤ)
    let c1 := (intRangeIncl (-(dot_radius : ℤ)) (dot_radius : ℤ)).foldl (fun ca dy =>
      (intRangeIncl (-(dot_radius : ℤ)) (dot_radius : ℤ)).foldl (fun cb dx =>
        if dx * dx + dy * dy ≤ r2 then
          let x := isizeToUsize ((x_center : ℤ) + dx)
          let y := isizeToUsize ((peak_y : ℤ) + dy)
          if x < cb.width ∧ layout.bars_y_start ≤ y ∧
              y < layout.bars_y_start + layout.bars_height ∧ y < cb.height then
            cb.put_pixel x y rgb.1 rgb.2.1 rgb.2.2 params.opacity
          else cb
        else cb) ca) c0
    let trail_width := max (params.bar_width / 4) 1
    let trail_start := peak_y + dot_radius + 1
    let trail_end := layout.bars_y_start + layout.bars_height
    let res := (natRange trail_start trail_end).foldl (fun (st : Canvas × Bool) yy =>
      if st.2 then st
      else
        let trail_intensity := 1 - (((yy - trail_start : ℕ) : ℚ) / ((layout.bars_height : ℚ) / 2))
        if trail_intensity ≤ 0 then (st.1, true)
        else
          let trgb := params.color_scheme.get_color position (trail_intensity * magnitude)
          ((List.range trail_width).foldl (fun cb bx =>
            let x := x_center - trail_width / 2 + bx
            if x < cb.width ∧ yy < cb.height then
              cb.put_pixel x yy trgb.1 trgb.2.1 trgb.2.2 (params.opacity * trail_intensity)
            else cb) st.1, false)) (c1, false)
    res.1) c

/-- Style 4: Blocks with gradient fade at top edge. -/
def render_bars_blocks (c : Canvas) (layout : BarLayout) (params : RenderParams) : Canvas :=
  let fade_height := max (params.bar_width / 2) 2
  (List.range layout.displayable).foldl (fun c0 i =>
    let magnitude := layout.render_frequencies.getD i 0
    let bar_height_f := magnitude * (layout.bars_height : ℚ)
    let bar_height := ratToUsize bar_height_f
    let fractional := bar_height_f - (bar_height : ℚ)
    let x_start := layout.start_x + i * layout.slot_width
    let position := (i : ℚ) / (layout.displayable : ℚ)
    let c1 := (List.range (min bar_height layout.bars_height)).foldl (fun ca y_offset =>
      let y := layout.bars_y_start + layout.bars_height - 1 - y_offset
      let intensity := (y_offset : ℚ) / (layout.bars_height : ℚ)
      let rgb := params.color_scheme.get_color position intensity
      (List.range params.bar_width).foldl (fun cb bx =>
        let x := x_start + bx
        if x < cb.width ∧ y < cb.height then
          cb.put_pixel x y rgb.1 rgb.2.1 rgb.2.2 params.opacity
        else cb) ca) c0
    if bar_height < layout.bars_height then
      let top_y := layout.bars_y_start + layout.bars_height - 1 - bar_height
      let intensity := (bar_height : ℚ) / (layout.bars_height : ℚ)
      let rgb := params.color_scheme.get_color position intensity
      (List.range (min fade_height (top_y - layout.bars_y_start))).foldl (fun ca fy =>
        let y := top_y - fy
        let fade := fractional * (1 - (fy : ℚ) / (fade_height : ℚ))
        if y < ca.height then
          (List.range params.bar_width).foldl (fun cb bx =>
            let x := x_start + bx
            if x < cb.width then
              cb.put_pixel x y rgb.1 rgb.2.1 rgb.2.2 (params.opacity * fade)
            else cb) ca
        else ca) c1
    else c1) c

/-- Style 5: Oscilloscope — raw waveform as a continuous line.  The fold
state pairs the canvas with prev_y. -/
def render_bars_oscilloscope (c : Canvas) (layout : BarLayout) (params : RenderParams) : Canvas :=
  if params.waveform.isEmpty then c
  else
    let num_samples := params.waveform.length
    let center_y := layout.bars_y_start + layout.bars_height / 2
    let half_height := (layout.bars_height : ℚ) / 2
    let thickness := max (params.bar_width / 4) 1
    let res := (List.range c.width).foldl (fun (st : Canvas × Option ℕ) x =>
      let sample := params.waveform.getD
        (min ((x * num_samples) / st.1.width) (num_samples - 1)) 0
      let y := min (max (ratToUsize ((center_y : ℚ) - sample * half_height))
        layout.bars_y_start) (layout.bars_y_start + layout.bars_height - 1)
      let position := (x : ℚ) / (st.1.width : ℚ)
      let intensity := min |sample| 1
      let rgb := params.color_scheme.get_color position (max intensity (3/10))
      let ymm : ℕ × ℕ :=
        match st.2 with
        | some py => (min py y, max py y)
        | none => (y, y)
      let c2 := (natRange ymm.1 (ymm.2 + 1)).foldl (fun ca fill_y =>
        (List.range thickness).foldl (fun cb t =>
          let py := fill_y + t
          if x < cb.width ∧ layout.bars_y_start ≤ py ∧
              py < layout.bars_y_start + layout.bars_height ∧ py < cb.height then
            cb.put_pixel x py rgb.1 rgb.2.1 rgb.2.2 params.opacity
          else cb) ca) st.1
      (c2, some y)) (c, none)
    res.1

/-- Style 6: Spectrogram — scrolling 2D heatmap, newest rows at the bottom. -/
def render_bars_spectrogram (c : Canvas) (layout : BarLayout) (params : RenderParams) : Canvas :=
  let history := params.spectrogram_history
  if history.isEmpty then c
  else
    let num_rows := min history.length layout.bars_height
    ((history.reverse.take num_rows).enum).foldl (fun c0 (p : ℕ × List ℚ) =>
      let row_idx := p.1
      let slice := p.2
      let y := layout.bars_y_start + layout.bars_height - 1 - row_idx
      if layout.bars_y_start + layout.bars_height ≤ y then c0
      else
        let num_freqs := slice.length
        if num_freqs = 0 then c0
        else
          (List.range c.width).foldl (fun c1 x =>
            let freq_idx := (x * num_freqs) / c1.width
            let magnitude := slice.getD (min freq_idx (num_freqs - 1)) 0
            let position := (x : ℚ) / (c1.width : ℚ)
            let rgb := params.color_scheme.get_color position magnitude
            c1.put_pixel x y rgb.1 rgb.2.1 rgb.2.2
              (params.opacity * max magnitude (1/20))) c0) c

/-- Style 7: Radial — frequency bars radiating outward from a base circle
(which is always drawn). -/
def render_bars_radial (T : TransOracle) (c : Canvas) (layout : BarLayout)
    (params : RenderParams) : Canvas :=
  let cx := (c.width : ℚ) / 2
  let cy := (layout.bars_y_start : ℚ) + (layout.bars_height : ℚ) / 2
  let half_dim := ((min c.width layout.bars_height : ℕ) : ℚ) / 2
  let base_radius := half_dim * (35/100)
  let max_radius := half_dim * (95/100)
  let thickness := max (params.bar_width / 3) 2
  let bar_count := layout.render_frequencies.length
  if bar_count = 0 then c
  else
    let circle_steps := ratCeilUsize (base_radius * T.tauF)
    let c1 := (List.range circle_steps).foldl (fun c0 (step : ℕ) =>
      let angle := ((step : ℚ) / (circle_steps : ℚ)) * T.tauF
      let px := (ratRound (cx + T.cosF angle * base_radius)).toNat
      let py := (ratRound (cy + T.sinF angle * base_radius)).toNat
      let pos0 := (angle + T.fracPi2F) / T.tauF
      let position := pos0 - ((Rat.floor pos0 : ℤ) : ℚ)
      let rgb := params.color_scheme.get_color position (3/10)
      (List.range thickness).foldl (fun cb t =>
        let tx := px + t
        if tx < cb.width ∧ layout.bars_y_start ≤ py ∧
            py < layout.bars_y_start + layout.bars_height ∧ py < cb.height then
          cb.put_pixel tx py rgb.1 rgb.2.1 rgb.2.2 (params.opacity * (1/2))
        else cb) c0) c
    (List.range bar_count).foldl (fun c0 i =>
      let magnitude := layout.render_frequencies.getD i 0
      if magnitude < 1/100 then c0
      else
        let angle := -T.fracPi2F + ((i : ℚ) / (bar_count : ℚ)) * T.tauF
        let bar_length := magnitude * (max_radius - base_radius)
        let position := (i : ℚ) / (bar_count : ℚ)
        let steps := max (ratCeilUsize bar_length) 1
        let cos_a := T.cosF angle
        let sin_a := T.sinF angle
        (List.range (steps + 1)).foldl (fun ca (s : ℕ) =>
          let r_dist := base_radius + ((s : ℚ) / (steps : ℚ)) * bar_length
          let px : ℤ := ratRound (cx + cos_a * r_dist)
          let py_val : ℤ := ratRound (cy + sin_a * r_dist)
          let intensity := (r_dist - base_radius) / (max_radius - base_radius)
          let rgb := params.color_scheme.get_color position
            (magnitude * (1/2) + intensity * (1/2))
          (intRangeIncl (-((thickness : ℤ) / 2)) ((thickness : ℤ) / 2)).foldl (fun cb t =>
            let tx := (ratRound ((px : ℚ) - sin_a * (t : ℚ))).toNat
            let ty := (ratRound ((py_val : ℚ) + cos_a * (t : ℚ))).toNat
            if tx < cb.width ∧ layout.bars_y_start ≤ ty ∧
                ty < layout.bars_y_start + layout.bars_height ∧ ty < cb.height then
              cb.put_pixel tx ty rgb.1 rgb.2.1 rgb.2.2 params.opacity
            else cb) ca) c0) c1

/-- render_bars — compute the layout once, then dispatch on the style tag;
styles other than 1..=7 fall back to Classic. -/
def render_bars (T : TransOracle) (c : Canvas) (frequencies : List ℚ)
    (params : RenderParams) : Canvas :=
  match compute_bar_layout c.width c.height frequencies params with
  | none => c
  | some layout =>
    match params.style with
    | 1 => render_bars_mirrored c layout params
    | 2 => render_bars_wave c layout params
    | 3 => render_bars_dots c layout params
    | 4 => render_bars_blocks c layout params
    | 5 => render_bars_oscilloscope c layout params
    | 6 => render_bars_spectrogram c layout params
    | 7 => render_bars_radial T c layout params
    | _ => render_bars_classic c layout params

/-!
Text renderer (src/renderer/text.rs).  Strings are lists of characters; the
tracing log call of the source has no canvas effect and is omitted.  The
apostrophe and double-quote rows of the bitmap font table are matched via
their code points.
-/

/-- The 8x8 bitmap font table of get_char_bitmap, one byte per row. -/
def get_char_bitmap (c0 : Char) : Option (List ℕ) :=
  let ch := c0.toUpper
  if ch.toNat = 39 then some [0x08, 0x08, 0x10, 0x00, 0x00, 0x00, 0x00, 0x00]
  else if ch.toNat = 34 then some [0x24, 0x24, 0x48, 0x00, 0x00, 0x00, 0x00, 0x00]
  else
    match ch with
    | 'A' => some [0x18, 0x24, 0x42, 0x7E, 0x42, 0x42, 0x42, 0x00]
    | 'B' => some [0x7C, 0x42, 0x7C, 0x42, 0x42, 0x42, 0x7C, 0x00]
    | 'C' => some [0x3C, 0x42, 0x40, 0x40, 0x40, 0x42, 0x3C, 0x00]
    | 'D' => some [0x78, 0x44, 0x42, 0x42, 0x42, 0x44, 0x78, 0x00]
    | 'E' => some [0x7E, 0x40, 0x7C, 0x40, 0x40, 0x40, 0x7E, 0x00]
    | 'F' => some [0x7E, 0x40, 0x7C, 0x40, 0x40, 0x40, 0x40, 0x00]
    | 'G' => some [0x3C, 0x42, 0x40, 0x4E, 0x42, 0x42, 0x3C, 0x00]
    | 'H' => some [0x42, 0x42, 0x7E, 0x42, 0x42, 0x42, 0x42, 0x00]
    | 'I' => some [0x3E, 0x08, 0x08, 0x08, 0x08, 0x08, 0x3E, 0x00]
    | 'J' => some [0x1F, 0x04, 0x04, 0x04, 0x04, 0x44, 0x38, 0x00]
    | 'K' => some [0x42, 0x44, 0x78, 0x48, 0x44, 0x42, 0x42, 0x00]
    | 'L' => some [0x40, 0x40, 0x40, 0x40, 0x40, 0x40, 0x7E, 0x00]
    | 'M' => some [0x42, 0x66, 0x5A, 0x42, 0x42, 0x42, 0x42, 0x00]
    | 'N' => some [0x42, 0x62, 0x52, 0x4A, 0x46, 0x42, 0x42, 0x00]
    | 'O' => some [0x3C, 0x42, 0x42, 0x42, 0x42, 0x42, 0x3C, 0x00]
    | 'P' => some [0x7C, 0x42, 0x42, 0x7C, 0x40, 0x40, 0x40, 0x00]
    | 'Q' => some [0x3C, 0x42, 0x42, 0x42, 0x4A, 0x44, 0x3A, 0x00]
    | 'R' => some [0x7C, 0x42, 0x42, 0x7C, 0x48, 0x44, 0x42, 0x00]
    | 'S' => some [0x3C, 0x42, 0x30, 0x0C, 0x02, 0x42, 0x3C, 0x00]
    | 'T' => some [0x7F, 0x08, 0x08, 0x08, 0x08, 0x08, 0x08, 0x00]
    | 'U' => some [0x42, 0x42, 0x42, 0x42, 0x42, 0x42, 0x3C, 0x00]
    | 'V' => some [0x42, 0x42, 0x42, 0x42, 0x24, 0x24, 0x18, 0x00]
    | 'W' => some [0x42, 0x42, 0x42, 0x5A, 0x5A, 0x66, 0x42, 0x00]
    | 'X' => some [0x42, 0x24, 0x18, 0x18, 0x24, 0x42, 0x42, 0x00]
    | 'Y' => some [0x41, 0x22, 0x14, 0x08, 0x08, 0x08, 0x08, 0x00]
    | 'Z' => some [0x7E, 0x04, 0x08, 0x10, 0x20, 0x40, 0x7E, 0x00]
    | '0' => some [0x3C, 0x42, 0x46, 0x5A, 0x62, 0x42, 0x3C, 0x00]
    | '1' => some [0x08, 0x18, 0x28, 0x08, 0x08, 0x08, 0x3E, 0x00]
    | '2' => some [0x3C, 0x42, 0x02, 0x0C, 0x30, 0x40, 0x7E, 0x00]
    | '3' => some [0x3C, 0x42, 0x02, 0x1C, 0x02, 0x42, 0x3C, 0x00]
    | '4' => some [0x04, 0x0C, 0x14, 0x24, 0x7E, 0x04, 0x04, 0x00]
    | '5' => some [0x7E, 0x40, 0x7C, 0x02, 0x02, 0x42, 0x3C, 0x00]
    | '6' => some [0x1C, 0x20, 0x40, 0x7C, 0x42, 0x42, 0x3C, 0x00]
    | '7' => some [0x7E, 0x02, 0x04, 0x08, 0x10, 0x10, 0x10, 0x00]
    | '8' => some [0x3C, 0x42, 0x42, 0x3C, 0x42, 0x42, 0x3C, 0x00]
    | '9' => some [0x3C, 0x42, 0x42, 0x3E, 0x02, 0x04, 0x38, 0x00]
    | ' ' => some [0x00, 0x00, 0x00, 0x00, 0x00, 0x00, 0x00, 0x00]
    | '-' => some [0x00, 0x00, 0x00, 0x7E, 0x00, 0x00, 0x00, 0x00]
    | '.' => some [0x00, 0x00, 0x00, 0x00, 0x00, 0x18, 0x18, 0x00]
    | ',' => some [0x00, 0x00, 0x00, 0x00, 0x00, 0x18, 0x08, 0x10]
    | '!' => some [0x08, 0x08, 0x08, 0x08, 0x08, 0x00, 0x08, 0x00]
    | '?' => some [0x3C, 0x42, 0x02, 0x0C, 0x10, 0x00, 0x10, 0x00]
    | ':' => some [0x00, 0x18, 0x18, 0x00, 0x18, 0x18, 0x00, 0x00]
    | '(' => some [0x04, 0x08, 0x10, 0x10, 0x10, 0x08, 0x04, 0x00]
    | ')' => some [0x20, 0x10, 0x08, 0x08, 0x08, 0x10, 0x20, 0x00]
    | '&' => some [0x30, 0x48, 0x30, 0x50, 0x4A, 0x44, 0x3A, 0x00]
    | _ => none

/-- render_char — scaled blit of one 8x8 glyph through put_pixel. -/
def render_char (c : Canvas) (x y : ℕ) (ch : Char) (r g b : ℕ) (scale : ℕ)
    (opacity : ℚ) : Canvas :=
  match get_char_bitmap ch with
  | none => c
  | some bitmap =>
    bitmap.enum.foldl (fun c0 (p : ℕ × ℕ) =>
      let row_idx := p.1
      let row := p.2
      (List.range 8).foldl (fun c1 col =>
        if (row >>> (7 - col)) &&& 1 = 1 then
          (List.range scale).foldl (fun c2 sy =>
            (List.range scale).foldl (fun c3 sx =>
              let px := x + col * scale + sx
              let py := y + row_idx * scale + sy
              if px < c3.width ∧ py < c3.height then
                c3.put_pixel px py r g b opacity
              else c3) c2) c1
        else c1) c0) c

/-- One character of the render_text loop past its animation geometry: the
off-screen skip followed by the font-style drawing passes. -/
def draw_text_char (c0 : Canvas) (width char_width : ℕ) (fs : FontStyle)
    (char_x char_y : ℕ) (ch : Char) (rgb : ℕ × ℕ × ℕ) (scale : ℕ)
    (char_opacity : ℚ) : Canvas :=
  if width ≤ char_x ∨ width + char_width < char_x + char_width then c0
  else
    match fs with
    | .Bold =>
      let ca := render_char c0 char_x char_y ch rgb.1 rgb.2.1 rgb.2.2 scale char_opacity
      let cb := render_char ca (char_x + 1) char_y ch rgb.1 rgb.2.1 rgb.2.2 scale char_opacity
      render_char cb char_x (char_y + 1) ch rgb.1 rgb.2.1 rgb.2.2 scale char_opacity
    | .Figlet =>
      let outline := (rgb.1 / 3, rgb.2.1 / 3, rgb.2.2 / 3)
      let ca := ([0, 2] : List ℤ).foldl (fun cc ox =>
        ([0, 2] : List ℤ).foldl (fun cd oy =>
          if ox ≠ 1 ∨ oy ≠ 1 then
            render_char cd (isizeToUsize ((char_x : ℤ) + ox))
              (isizeToUsize ((char_y : ℤ) + oy)) ch
              outline.1 outline.2.1 outline.2.2 scale (char_opacity * (1/2))
          else cd) cc) c0
      render_char ca (char_x + 1) (char_y + 1) ch rgb.1 rgb.2.1 rgb.2.2 scale char_opacity
    | .Normal => render_char c0 char_x char_y ch rgb.1 rgb.2.1 rgb.2.2 scale char_opacity
    | .Ascii => render_char c0 char_x char_y ch rgb.1 rgb.2.1 rgb.2.2 scale char_opacity

/-- render_text past its early return — build the display string, resolve
geometry, draw the optional background box (by direct buffer writes, as the
source does), then draw each character with its animation and font-style
passes. -/
def render_text_body (T : TransOracle) (c : Canvas) (frame : FrameData)
    (params : RenderParams) : Canvas :=
  let text_config := params.text_config
  let width := c.width
  let height := c.height
  let intensity := frame.intensity
  let time := frame.time
    let tp : List Char × ℕ :=
      match text_config.show_title, text_config.show_artist,
          frame.track_title, frame.track_artist with
      | true, true, some title, some artist =>
          (title ++ [' ', '-', ' '] ++ artist, title.length)
      | true, true, some title, none => (title, title.length)
      | true, true, none, some artist => (artist, 0)
      | true, false, some title, _ => (title, title.length)
      | false, true, _, some artist => (artist, 0)
      | _, _, _, _ => (['c', 'a', 'v', 'i', 'b', 'e'], 6)
    let text := tp.1
    let title_len := tp.2
    let base_scale : ℚ :=
      match text_config.font_style with
      | .Normal => 3
      | .Bold => 4
      | .Ascii => 2
      | .Figlet => 5
    let size_factor := (height : ℚ) / 800
    let scale := (max (ratRound (base_scale * size_factor)) 1).toNat
    let char_width := 8 * scale
    let char_height := 8 * scale
    let char_spacing :=
      match text_config.font_style with
      | .Bold => 2 * scale
      | _ => scale
    let text_area_height := char_height + 20
    let margin_h := text_config.margin_horizontal
    let yx : ℕ × Option ℕ :=
      match text_config.position with
      | .Top => (text_config.margin_top, none)
      | .Bottom => (height - (text_area_height + text_config.margin_bottom), none)
      | .Center => ((height - char_height) / 2, none)
      | .Coordinates xv yv => (yv.resolve height, some (xv.resolve width))
    let base_text_y := yx.1
    let coord_x_override := yx.2
    let text_width := text.length * (char_width + char_spacing)
    let available_width := width - margin_h * 2
    let base_start_x : ℕ :=
      match coord_x_override with
      | some cx => cx
      | none =>
        match text_config.alignment with
        | .Left => margin_h
        | .Center => margin_h + (available_width - text_width) / 2
        | .Right => margin_h + (available_width - text_width)
    let scroll_offset : ℤ :=
      match text_config.animation_style with
      | .Scroll =>
        if available_width < text_width then
          let scroll_range := text_width - available_width + margin_h * 2
          let scroll_speed := text_config.animation_speed * 30
          let cycle_time := (scroll_range : ℚ) / scroll_speed
          let t := ratFmod time (cycle_time * 2) / cycle_time
          let normalized := if 1 < t then 2 - t else t
          ratTrunc (normalized * (scroll_range : ℚ))
        else 0
      | _ => 0
    let y := base_text_y + (text_area_height - char_height) / 2
    let c1 :=
      match text_config.background_color with
      | some bg_color =>
        let bg_padding : ℕ := 10
        let bg_x_start : ℕ := base_start_x - bg_padding
        let bg_x_end := min (base_start_x + text_width + bg_padding) width
        let bg_y_start : ℕ := base_text_y - bg_padding
        let bg_y_end := min (base_text_y + text_area_height + bg_padding) height
        (natRange bg_y_start bg_y_end).foldl (fun ca py =>
          (natRange bg_x_start bg_x_end).foldl (fun cb px =>
            let idx := (py * width + px) * 4
            if idx + 3 < cb.dataLen then
              { cb with data := fun j =>
                  if j = idx then ratToU8 ((bg_color.r : ℚ) * params.opacity)
                  else if j = idx + 1 then ratToU8 ((bg_color.g : ℚ) * params.opacity)
                  else if j = idx + 2 then ratToU8 ((bg_color.b : ℚ) * params.opacity)
                  else if j = idx + 3 then ratToU8 (params.opacity * 255 * (8/10))
                  else cb.data j }
            else cb) ca) c
      | none => c
    let colors : List (ℕ × ℕ × ℕ) :=
      if text_config.use_color_scheme then
        params.color_scheme.get_text_gradient text.length
          (intensity * text_config.pulse_intensity) (time * text_config.animation_speed)
      else
        let title_color := text_config.title_color.getD ⟨255, 255, 255⟩
        let artist_color := text_config.artist_color.getD ⟨200, 200, 200⟩
        text.enum.map (fun p =>
          if 0 < title_len ∧ title_len + 3 ≤ p.1 then
            (artist_color.r, artist_color.g, artist_color.b)
          else (title_color.r, title_color.g, title_color.b))
    text.enum.foldl (fun c0 (p : ℕ × Char) =>
      let i := p.1
      let ch := p.2
      let base_x := isizeToUsize ((base_start_x : ℤ) - scroll_offset +
        ((i * (char_width + char_spacing) : ℕ) : ℤ))
      let xyo : ℕ × ℕ × ℚ :=
        match text_config.animation_style with
        | .Wave =>
          let wave_offset := ratTrunc (T.sinF (time * text_config.animation_speed * 3 +
            (i : ℚ) * (3/10)) * 8)
          (base_x, ((y : ℤ) + wave_offset).toNat, params.opacity)
        | .Pulse =>
          let pulse := 7/10 + 3/10 * (intensity * text_config.pulse_intensity)
          (base_x, y, params.opacity * pulse)
        | .Fade =>
          let fade := 1/2 + 1/2 * (T.sinF (time * text_config.animation_speed) * (1/2) + 1/2)
          (base_x, y, params.opacity * fade)
        | .Scroll => (base_x, y, params.opacity)
        | .None => (base_x, y, params.opacity)
      draw_text_char c0 width char_width text_config.font_style xyo.1 xyo.2.1
        ch (colors.getD i (255, 255, 255)) scale xyo.2.2) c1

/-- render_text — do nothing when neither title nor artist is shown (the
early return of the source), otherwise run the body. -/
def render_text (T : TransOracle) (c : Canvas) (frame : FrameData)
    (params : RenderParams) : Canvas :=
  if !params.text_config.show_title && !params.text_config.show_artist then c
  else render_text_body T c frame params

/-- render_frame — clear the canvas, draw the bars, then overlay the text. -/
def render_frame (T : TransOracle) (c : Canvas) (frame : FrameData)
    (params : RenderParams) : Canvas :=
  render_text T (render_bars T c.clear frame.frequencies params) frame params

/-!
Spectral analyzer (src/audio/fft.rs).

The FFT of the rustfft crate, the cosine of the Hann window, the complex
magnitude (norm) of a bin, and the powf of the logarithmic frequency axis
are transcendental; they are an explicit oracle.  powA x stands for the f32
value min_freq * (max_freq / min_freq).powf(x) for the configured rates;
fftNorm buf k stands for buffer[k].norm() after the in-place FFT of buf.
The f32 fields intensity and bass of AudioData can be NaN (the mean of an
empty slice is 0.0/0.0); they are modelled as Option values, none for the
non-finite result.
-/

structure FftOracle where
  powA : ℚ → ℚ
  fftNorm : List ℚ → ℕ → ℚ
  window : ℕ → ℚ

/-- AudioData (src/audio/mod.rs), as produced by process. -/
structure AudioData where
  frequencies : List ℚ
  intensity : Option ℚ
  bass : Option ℚ

/-- The persistent analyzer state of FrequencyAnalyzer. -/
structure FrequencyAnalyzer where
  fft_size : ℕ
  num_bars : ℕ
  sample_rate : ℚ
  smoothing : ℚ
  sensitivity : ℚ
  previous_magnitudes : List ℚ

/-- FrequencyAnalyzer::new — fft_size 2048, previous magnitudes all zero. -/
def FrequencyAnalyzer.new (num_bars : ℕ) (sample_rate smoothing sensitivity : ℚ) :
    FrequencyAnalyzer :=
  { fft_size := 2048, num_bars := num_bars, sample_rate := sample_rate,
    smoothing := smoothing, sensitivity := sensitivity,
    previous_magnitudes := List.replicate num_bars 0 }

/-- The buffer fill of process: windowed samples for i below the sample
count (capped at fft_size), zero-padding beyond. -/
def fillBuffer (fft_size : ℕ) (window : ℕ → ℚ) (samples : List ℚ) : List ℚ :=
  (List.range fft_size).map (fun i =>
    if i < samples.length then samples.getD i 0 * window i else 0)

/-- The mean sum / len as computed on f32 slices: none (NaN) for an empty
slice, where the source divides 0.0 by 0.0. -/
def meanF (l : List ℚ) : Option ℚ :=
  if l.length = 0 then none else some (l.sum / (l.length : ℚ))

/-- calculate_bar_magnitudes — log-spaced bin averaging into num_bars / 2
half magnitudes, scaled, clamped to 1.0, then mirrored into num_bars values
(the two set-writes per iteration of the mirror loop of the source). -/
def calculate_bar_magnitudes (O : FftOracle) (norm : ℕ → ℚ)
    (fft_size num_bars : ℕ) (sample_rate sensitivity : ℚ) : List ℚ :=
  let useful_bins := fft_size / 2
  let half_bars := num_bars / 2
  let half_magnitudes : List ℚ := (List.range half_bars).map (fun (bar : ℕ) =>
    let bar_start := (bar : ℚ) / (half_bars : ℚ)
    let bar_end := ((bar + 1 : ℕ) : ℚ) / (half_bars : ℚ)
    let freq_start := O.powA bar_start
    let freq_end := O.powA bar_end
    let bin_start := ratToUsize (freq_start * (fft_size : ℚ) / sample_rate)
    let bin_end := ratCeilUsize (freq_end * (fft_size : ℚ) / sample_rate)
    let bin_start := min bin_start (useful_bins - 1)
    let bin_end := max (min bin_end useful_bins) (bin_start + 1)
    let sum := ((natRange bin_start bin_end).map norm).sum
    let avg := sum / ((bin_end - bin_start : ℕ) : ℚ)
    min (avg * (2/100) * sensitivity) 1)
  (List.range half_bars).foldl (fun acc i =>
    (acc.set (half_bars - 1 - i) (half_magnitudes.getD i 0)).set
      (half_bars + i) (half_magnitudes.getD i 0))
    (List.replicate num_bars (0 : ℚ))

/-- The raw (pre-smoothing) bar magnitudes computed by one process call. -/
def rawMagnitudes (O : FftOracle) (a : FrequencyAnalyzer) (samples : List ℚ) : List ℚ :=
  calculate_bar_magnitudes O
    (O.fftNorm (fillBuffer a.fft_size O.window samples))
    a.fft_size a.num_bars a.sample_rate a.sensitivity

/-- FrequencyAnalyzer::process — returns the AudioData together with the
updated analyzer state (previous_magnitudes := the smoothed output). -/
def FrequencyAnalyzer.process (O : FftOracle) (a : FrequencyAnalyzer)
    (samples : List ℚ) : AudioData × FrequencyAnalyzer :=
  let frequencies := rawMagnitudes O a samples
  let smoothed := List.zipWith
    (fun new old => old * a.smoothing + new * (1 - a.smoothing))
    frequencies a.previous_magnitudes
  let intensity := meanF smoothed
  let third := smoothed.length / 3
  let bass :=
    if third = 0 then none
    else some ((smoothed.take third).sum / (third : ℚ))
  ({ frequencies := smoothed, intensity := intensity, bass := bass },
   { a with previous_magnitudes := smoothed })

/-!
Concrete fixtures shared by witnesses and counterexamples: a trivial
transcendental oracle, a constant colour scheme, a text configuration with
text disabled, and small oracles for the analyzer.
-/

def oracleT : TransOracle := ⟨fun _ => 0, fun _ => 0, 0, 0⟩

def whiteCS : ColorScheme := ⟨fun _ _ => (255, 255, 255), fun _ _ _ => []⟩

def noTextTC : TextConfig :=
  { show_title := false, show_artist := false, animation_speed := 1,
    pulse_intensity := 1, position := .Bottom, font_style := .Normal,
    alignment := .Center, animation_style := .Scroll, margin_top := 0,
    margin_bottom := 0, margin_horizontal := 0, title_color := none,
    artist_color := none, background_color := none, use_color_scheme := true }

/-- An analyzer oracle with distinct per-bin spectrum: powA x = 1 + 2x maps
bar boundaries to distinct bins, and bin k has magnitude k. -/
def rampOracle : FftOracle := ⟨fun x => 1 + 2 * x, fun _ k => (k : ℚ), fun _ => 1⟩

/-- An analyzer oracle whose FFT magnitudes are identically zero. -/
def zeroOracle : FftOracle := ⟨fun x => x, fun _ _ => 0, fun _ => 1⟩

/-!
Helper lemmas.
-/

lemma foldl_eq_id {α} {f : Canvas → α → Canvas} (hf : ∀ c a, f c a = c) :
    ∀ (l : List α) (c : Canvas), l.foldl f c = c := by
  intro l
  induction l with
  | nil => intro c; rfl
  | cons a t ih => intro c; rw [List.foldl_cons, hf]; exact ih c

lemma mem_zipWith {α β γ} {f : α → β → γ} {x : γ} :
    ∀ {l1 : List α} {l2 : List β}, x ∈ List.zipWith f l1 l2 →
      ∃ a ∈ l1, ∃ b ∈ l2, x = f a b := by
  intro l1
  induction l1 with
  | nil => intro l2 h; simp at h
  | cons a t ih =>
    intro l2 h
    cases l2 with
    | nil => simp at h
    | cons b t2 =>
      rw [List.zipWith_cons_cons, List.mem_cons] at h
      rcases h with h | h
      · exact ⟨a, by simp, b, by simp, h⟩
      · obtain ⟨a1, ha1, b1, hb1, hx⟩ := ih h
        exact ⟨a1, by simp [ha1], b1, by simp [hb1], hx⟩

lemma start_fit (width slot displayable : ℕ)
    (hd : displayable ≤ width / max slot 1) :
    (width - displayable * slot) / 2 + displayable * slot ≤ width := by
  rcases Nat.eq_zero_or_pos slot with h0 | hpos
  · subst h0
    simpa using Nat.div_le_self width 2
  · have hmax : max slot 1 = slot := Nat.max_eq_left hpos
    rw [hmax] at hd
    have hle : displayable * slot ≤ width := (Nat.le_div_iff_mul_le hpos).1 hd
    have := Nat.div_le_self (width - displayable * slot) 2
    omega

/-- C10: whenever compute_bar_layout returns some layout, the bars fit the
canvas horizontally: displayable and bars_height are at least 1, the
re-sampled frequency list has length exactly displayable, and
start_x + displayable * slot_width stays within the canvas width. -/
theorem compute_bar_layout_fits (width height : ℕ) (frequencies : List ℚ)
    (params : RenderParams) (layout : BarLayout)
    (h : compute_bar_layout width height frequencies params = some layout) :
    1 ≤ layout.displayable ∧ 1 ≤ layout.bars_height ∧
    layout.render_frequencies.length = layout.displayable ∧
    layout.start_x + layout.displayable * layout.slot_width ≤ width := by
  unfold compute_bar_layout at h
  repeat' split at h
  all_goals try dsimp only at h
  any_goals exact Option.noConfusion h
  all_goals repeat' split at h
  any_goals exact Option.noConfusion h
  all_goals
    injection h with h
    subst h
    try dsimp only
    refine ⟨Nat.one_le_iff_ne_zero.2 (by assumption),
      Nat.one_le_iff_ne_zero.2 (by assumption), ?_,
      start_fit width (params.bar_width + params.bar_spacing) _ (Nat.min_le_left _ _)⟩
  all_goals
    simp only [List.length_append, List.length_map, List.length_range]
  all_goals exact Nat.add_sub_cancel' (Nat.div_le_self _ 2)

/-- Witness for C10 at a concrete layout: width 10, height 5, one frequency,
bar width 2, spacing 1. -/
theorem compute_bar_layout_fits_witness :
    1 ≤ (BarLayout.mk 0 5 3 3 1 [1/2]).displayable ∧
    1 ≤ (BarLayout.mk 0 5 3 3 1 [1/2]).bars_height ∧
    (BarLayout.mk 0 5 3 3 1 [1/2]).render_frequencies.length =
      (BarLayout.mk 0 5 3 3 1 [1/2]).displayable ∧
    (BarLayout.mk 0 5 3 3 1 [1/2]).start_x +
      (BarLayout.mk 0 5 3 3 1 [1/2]).displayable *
        (BarLayout.mk 0 5 3 3 1 [1/2]).slot_width ≤ 10 :=
  compute_bar_layout_fits 10 5 [1/2]
    { style := 0, bar_width := 2, bar_spacing := 1, mirror := false,
      reverse_mirror := false, opacity := 1, color_scheme := whiteCS,
      waveform := [], spectrogram_history := [], text_config := noTextTC }
    (BarLayout.mk 0 5 3 3 1 [1/2]) (by with_unfolding_all rfl)

lemma argbLoop_ge (data dest : ℕ → ℕ) :
    ∀ (n j : ℕ), 4 * n ≤ j → argbLoop data dest n j = dest j := by
  intro n
  induction n with
  | zero => intro j _; rfl
  | succ m ih =>
    intro j hj
    have h4 : 4 * m + 3 < j := by omega
    simp only [argbLoop, argbStep]
    rw [if_neg (by omega), if_neg (by omega), if_neg (by omega), if_neg (by omega)]
    exact ih j (by omega)

lemma argbLoop_pixel (data dest : ℕ → ℕ) :
    ∀ (n i : ℕ), i < n →
      argbLoop data dest n (i * 4) = data (i * 4 + 2) ∧
      argbLoop data dest n (i * 4 + 1) = data (i * 4 + 1) ∧
      argbLoop data dest n (i * 4 + 2) = data (i * 4) ∧
      argbLoop data dest n (i * 4 + 3) = data (i * 4 + 3) := by
  intro n
  induction n with
  | zero => intro i hi; omega
  | succ m ih =>
    intro i hi
    rcases Nat.lt_succ_iff_lt_or_eq.1 hi with hlt | rfl
    · have hne : i ≠ m := by omega
      refine ⟨?_, ?_, ?_, ?_⟩ <;>
        · show argbStep data (argbLoop data dest m) m _ = _
          unfold argbStep
          split_ifs <;>
            first
              | exact (ih i hlt).1
              | exact (ih i hlt).2.1
              | exact (ih i hlt).2.2.1
              | exact (ih i hlt).2.2.2
              | omega
    · refine ⟨?_, ?_, ?_, ?_⟩ <;>
        · show argbStep data (argbLoop data dest i) i _ = _
          unfold argbStep
          split_ifs <;> first | rfl | omega

/-- C6: Canvas::write_argb8888 is a pure per-pixel byte permutation.  For
every pixel i below width * height the output holds B, G, R, A taken from
the RGBA bytes of pixel i of the canvas, and every destination byte at or
beyond width * height * 4 is left unchanged, so exactly width * height
pixels are processed. -/
theorem write_argb8888_permutes (c : Canvas) (dest : ℕ → ℕ) :
    (∀ i, i < c.width * c.height →
      c.write_argb8888 dest (i * 4) = c.data (i * 4 + 2) ∧
      c.write_argb8888 dest (i * 4 + 1) = c.data (i * 4 + 1) ∧
      c.write_argb8888 dest (i * 4 + 2) = c.data (i * 4) ∧
      c.write_argb8888 dest (i * 4 + 3) = c.data (i * 4 + 3)) ∧
    (∀ j, c.width * c.height * 4 ≤ j → c.write_argb8888 dest j = dest j) := by
  constructor
  · intro i hi
    exact argbLoop_pixel c.data dest (c.width * c.height) i hi
  · intro j hj
    exact argbLoop_ge c.data dest (c.width * c.height) j (by omega)

/-- Witness for C6 on a 1x1 canvas whose buffer holds the byte index
itself: the converted pixel reads 2 1 0 3 and byte 4 of dest is untouched. -/
theorem write_argb8888_permutes_witness :
    (Canvas.mk (fun j => j) 4 1 1).write_argb8888 (fun _ => 9) 0 = 2 ∧
    (Canvas.mk (fun j => j) 4 1 1).write_argb8888 (fun _ => 9) 3 = 3 ∧
    (Canvas.mk (fun j => j) 4 1 1).write_argb8888 (fun _ => 9) 4 = 9 := by
  refine ⟨?_, ?_, ?_⟩
  · exact ((write_argb8888_permutes (Canvas.mk (fun j => j) 4 1 1)
      (fun _ => 9)).1 0 (by decide)).1
  · exact ((write_argb8888_permutes (Canvas.mk (fun j => j) 4 1 1)
      (fun _ => 9)).1 0 (by decide)).2.2.2
  · exact (write_argb8888_permutes (Canvas.mk (fun j => j) 4 1 1)
      (fun _ => 9)).2 4 (by decide)

/-- C2 counterexample: put_pixel checks the linear byte index against the
buffer length, not x against the width; on a fresh 2x2 canvas the call
put_pixel(2, 0, ...) has x = 2 at or beyond width = 2, yet it writes byte 8
(the red byte of pixel (0, 1)), so the canvas buffer does change. -/
theorem put_pixel_oob_counterexample :
    ((Canvas.new 2 2).put_pixel 2 0 255 0 0 1).data 8 ≠ (Canvas.new 2 2).data 8 := by
  with_unfolding_all decide

/-- C2 amended: put_pixel is a silent no-op exactly when the byte range
(y * width + x) * 4 .. + 3 does not fit the buffer; in particular, when the
buffer length is exactly width * height * 4, every call with y at or beyond
height leaves the canvas untouched (x at or beyond width alone does not
suffice: such a write can wrap into a later row, see the counterexample). -/
theorem put_pixel_oob_noop (c : Canvas) (x y r g b : ℕ) (o : ℚ)
    (hlen : c.dataLen = c.width * c.height * 4) (hy : c.height ≤ y) :
    c.put_pixel x y r g b o = c := by
  unfold Canvas.put_pixel
  rw [if_neg]
  intro hcon
  have hge : c.height * c.width ≤ y * c.width := Nat.mul_le_mul_right c.width hy
  have : c.width * c.height * 4 ≤ (y * c.width + x) * 4 := by
    have : c.width * c.height ≤ y * c.width + x := by
      calc c.width * c.height = c.height * c.width := Nat.mul_comm _ _
        _ ≤ y * c.width := hge
        _ ≤ y * c.width + x := Nat.le_add_right _ _
    omega
  omega

/-- Witness for C2 amended: a row-2 write on a fresh 2x2 canvas is dropped. -/
theorem put_pixel_oob_noop_witness :
    (Canvas.new 2 2).put_pixel 0 2 9 9 9 1 = Canvas.new 2 2 :=
  put_pixel_oob_noop (Canvas.new 2 2) 0 2 9 9 9 1 (by decide) (by decide)

/-- C1: the mirror layout of calculate_bar_magnitudes.  With num_bars = 4
and a spectrum whose low band averages to magnitude 1/50 and whose high
band averages to 1/25 (oracle: bar boundaries at bins 1, 2, 3; bin k has
magnitude k; sensitivity 1), the code produces [1/25, 1/50, 1/50, 1/25]:
the HIGHEST band sits at the outer edges 0 and N - 1 and the lowest band
meets in the middle.  The claim (and the comments in the source) say the
lowest-frequency band sits at both outer edges, which would require
[1/50, 1/25, 1/25, 1/50]; the indexing of the mirror loop writes
half_magnitudes[i] to positions half_bars - 1 - i and half_bars + i,
contradicting the bass-on-edges comments directly above it. -/
theorem calculate_bar_magnitudes_mirror_eval :
    calculate_bar_magnitudes rampOracle (fun k => (k : ℚ)) 2048 4 2048 1 =
      [1/25, 1/50, 1/50, 1/25] := by
  with_unfolding_all decide

/-- C3 counterexample: with bar count 0, process divides by the zero length
twice; intensity is 0.0 / 0.0 = NaN in the source (modelled as none), not
the 0 promised by the claim. -/
theorem process_zero_bars_counterexample :
    (FrequencyAnalyzer.process rampOracle (FrequencyAnalyzer.new 0 44100 (1/2) 1)
      []).1.intensity ≠ some 0 := by
  with_unfolding_all decide

/-- C3 amended: on an empty sample block, with the previous magnitudes all
zero and at least 3 bars (so the lowest-third mean has a nonempty range),
process returns the all-zero result: frequencies all zero, intensity 0 and
bass 0.  With fewer than 3 bars the bass mean (and with 0 bars also the
intensity) is NaN rather than 0, and with nonzero previous magnitudes the
frequencies keep the decayed previous values. -/
theorem process_empty_all_zero (O : FftOracle) (a : FrequencyAnalyzer)
    (hprev : a.previous_magnitudes = List.replicate a.num_bars 0)
    (hbars : 3 ≤ a.num_bars)
    (hnorm : ∀ k, O.fftNorm (fillBuffer a.fft_size O.window []) k = 0) :
    (FrequencyAnalyzer.process O a []).1.frequencies = List.replicate a.num_bars 0 ∧
    (FrequencyAnalyzer.process O a []).1.intensity = some 0 ∧
    (FrequencyAnalyzer.process O a []).1.bass = some 0 := by
  have hlen : ∀ (init : List ℚ) (l : List ℕ) (f : ℕ → ℚ) (hb : ℕ),
      (l.foldl (fun acc i => (acc.set (hb - 1 - i) (f i)).set (hb + i) (f i)) init).length
        = init.length := by
    intro init l f hb
    induction l generalizing init with
    | nil => rfl
    | cons a t ih => simp [List.foldl_cons, ih]
  have hraw : rawMagnitudes O a [] = List.replicate a.num_bars 0 := by
    unfold rawMagnitudes calculate_bar_magnitudes
    rw [List.eq_replicate_iff]
    constructor
    · rw [hlen]; exact List.length_replicate _ _
    · intro b hb
      have hmem0 : ∀ (init : List ℚ) (l : List ℕ) (f : ℕ → ℚ) (hbb : ℕ),
          (∀ x ∈ init, x = 0) → (∀ i, f i = 0) →
          ∀ x ∈ l.foldl (fun acc i => (acc.set (hbb - 1 - i) (f i)).set (hbb + i) (f i)) init,
            x = 0 := by
        intro init l f hbb hinit hf
        induction l generalizing init with
        | nil => exact hinit
        | cons a t ih =>
          intro x hx
          rw [List.foldl_cons] at hx
          refine ih _ ?_ x hx
          intro z hz
          rcases List.mem_or_eq_of_mem_set hz with hz1 | hz1
          · rcases List.mem_or_eq_of_mem_set hz1 with hz2 | hz2
            · exact hinit z hz2
            · rw [hz2]; exact hf a
          · rw [hz1]; exact hf a
      refine hmem0 _ _ _ _ (fun x hx => (List.eq_of_mem_replicate hx)) ?_ b hb
      have hgd : ∀ (L : List ℚ), (∀ x ∈ L, x = 0) → ∀ idx, L.getD idx 0 = 0 := by
        intro L hL idx
        rcases Nat.lt_or_ge idx L.length with hlt | hge
        · rw [List.getD_eq_getElem _ _ hlt]
          exact hL _ (List.getElem_mem _)
        · exact List.getD_eq_default _ _ hge
      have hsum : ∀ (u v : ℕ),
          (List.map (O.fftNorm (fillBuffer a.fft_size O.window [])) (natRange u v)).sum = 0 := by
        intro u v
        refine List.sum_eq_zero ?_
        intro y hy
        rcases List.mem_map.1 hy with ⟨k, _, hk⟩
        rw [← hk, hnorm]
      intro i
      apply hgd
      intro x hx
      rcases List.mem_map.1 hx with ⟨bar, _, hbar⟩
      rw [← hbar]
      dsimp only
      rw [hsum, zero_div, zero_mul, zero_mul]
      exact min_eq_left (by norm_num)
  have hzip : List.zipWith (fun new old => old * a.smoothing + new * (1 - a.smoothing))
      (rawMagnitudes O a []) a.previous_magnitudes = List.replicate a.num_bars 0 := by
    rw [hraw, hprev, List.zipWith_replicate]
    simp
  have hthird : a.num_bars / 3 ≠ 0 := by
    have : 1 ≤ a.num_bars / 3 := (Nat.le_div_iff_mul_le (by norm_num)).2 (by omega)
    omega
  refine ⟨?_, ?_, ?_⟩
  · show List.zipWith _ (rawMagnitudes O a []) a.previous_magnitudes = _
    exact hzip
  · show meanF (List.zipWith _ (rawMagnitudes O a []) a.previous_magnitudes) = some 0
    rw [hzip]
    unfold meanF
    rw [if_neg (by simp; omega)]
    simp
  · show (if (List.zipWith _ (rawMagnitudes O a []) a.previous_magnitudes).length / 3 = 0
        then none
        else some (((List.zipWith _ (rawMagnitudes O a []) a.previous_magnitudes).take
          ((List.zipWith _ (rawMagnitudes O a []) a.previous_magnitudes).length / 3)).sum /
          (((List.zipWith _ (rawMagnitudes O a []) a.previous_magnitudes).length / 3 : ℕ) : ℚ)))
        = some 0
    rw [hzip, List.length_replicate, if_neg hthird, List.take_replicate, List.sum_replicate]
    simp

/-- Witness for C3 amended: a fresh 3-bar analyzer with an all-zero FFT on
the empty block yields zero frequencies, intensity and bass. -/
theorem process_empty_all_zero_witness :
    (FrequencyAnalyzer.process zeroOracle (FrequencyAnalyzer.new 3 44100 (1/2) 1)
      []).1.frequencies = List.replicate 3 0 ∧
    (FrequencyAnalyzer.process zeroOracle (FrequencyAnalyzer.new 3 44100 (1/2) 1)
      []).1.intensity = some 0 ∧
    (FrequencyAnalyzer.process zeroOracle (FrequencyAnalyzer.new 3 44100 (1/2) 1)
      []).1.bass = some 0 :=
  process_empty_all_zero zeroOracle (FrequencyAnalyzer.new 3 44100 (1/2) 1)
    rfl (by with_unfolding_all decide) (fun _ => rfl)

/-- C5: the exponential smoothing law of process.  Every output frequency
below the output length equals previous * s + raw * (1 - s), where raw is
the freshly computed bar magnitude and s the smoothing factor, and the
output list is persisted as the new previous_magnitudes for the next call. -/
theorem process_smoothing_law (O : FftOracle) (a : FrequencyAnalyzer)
    (samples : List ℚ) :
    (∀ i, i < ((FrequencyAnalyzer.process O a samples).1.frequencies).length →
      ((FrequencyAnalyzer.process O a samples).1.frequencies).getD i 0 =
        a.previous_magnitudes.getD i 0 * a.smoothing +
          (rawMagnitudes O a samples).getD i 0 * (1 - a.smoothing)) ∧
    (FrequencyAnalyzer.process O a samples).2.previous_magnitudes =
      (FrequencyAnalyzer.process O a samples).1.frequencies := by
  constructor
  · intro i hi
    have hi' : i < (List.zipWith
        (fun new old => old * a.smoothing + new * (1 - a.smoothing))
        (rawMagnitudes O a samples) a.previous_magnitudes).length := hi
    have h1 : i < (rawMagnitudes O a samples).length := by
      rw [List.length_zipWith] at hi'; omega
    have h2 : i < a.previous_magnitudes.length := by
      rw [List.length_zipWith] at hi'; omega
    show (List.zipWith _ (rawMagnitudes O a samples) a.previous_magnitudes).getD i 0 = _
    rw [List.getD_eq_getElem _ _ hi', List.getElem_zipWith,
      List.getD_eq_getElem _ _ h1, List.getD_eq_getElem _ _ h2]
  · rfl

/-- A small analyzer state with nonzero persisted magnitudes, for the C5
witness. -/
def smallAnalyzer : FrequencyAnalyzer :=
  { fft_size := 8, num_bars := 2, sample_rate := 8, smoothing := 1/2,
    sensitivity := 1, previous_magnitudes := [1/4, 1/2] }

/-- Witness for C5 at index 0 of a 2-bar analyzer with previous magnitudes
[1/4, 1/2] and smoothing 1/2. -/
theorem process_smoothing_law_witness :
    ((FrequencyAnalyzer.process zeroOracle smallAnalyzer []).1.frequencies).getD 0 0 =
      smallAnalyzer.previous_magnitudes.getD 0 0 * smallAnalyzer.smoothing +
        (rawMagnitudes zeroOracle smallAnalyzer []).getD 0 0 *
          (1 - smallAnalyzer.smoothing) ∧
    (FrequencyAnalyzer.process zeroOracle smallAnalyzer []).2.previous_magnitudes =
      (FrequencyAnalyzer.process zeroOracle smallAnalyzer []).1.frequencies :=
  ⟨(process_smoothing_law zeroOracle smallAnalyzer []).1 0 (by with_unfolding_all decide),
   (process_smoothing_law zeroOracle smallAnalyzer []).2⟩

lemma mirror_fold_length (f : ℕ → ℚ) (hb : ℕ) (l : List ℕ) (init : List ℚ) :
    (l.foldl (fun acc i => (acc.set (hb - 1 - i) (f i)).set (hb + i) (f i)) init).length
      = init.length := by
  induction l generalizing init with
  | nil => rfl
  | cons a t ih => simp [List.foldl_cons, ih]

lemma mirror_fold_mem {P : ℚ → Prop} (f : ℕ → ℚ) (hb : ℕ) (l : List ℕ)
    (init : List ℚ) (hinit : ∀ x ∈ init, P x) (hf : ∀ i, P (f i)) :
    ∀ x ∈ l.foldl (fun acc i => (acc.set (hb - 1 - i) (f i)).set (hb + i) (f i)) init,
      P x := by
  induction l generalizing init with
  | nil => exact hinit
  | cons a t ih =>
    intro x hx
    rw [List.foldl_cons] at hx
    refine ih _ ?_ x hx
    intro z hz
    rcases List.mem_or_eq_of_mem_set hz with hz1 | hz1
    · rcases List.mem_or_eq_of_mem_set hz1 with hz2 | hz2
      · exact hinit z hz2
      · rw [hz2]; exact hf a
    · rw [hz1]; exact hf a

lemma calculate_bar_magnitudes_length (O : FftOracle) (norm : ℕ → ℚ)
    (fft_size num_bars : ℕ) (sample_rate sensitivity : ℚ) :
    (calculate_bar_magnitudes O norm fft_size num_bars sample_rate sensitivity).length
      = num_bars := by
  unfold calculate_bar_magnitudes
  rw [mirror_fold_length, List.length_replicate]

lemma getD_prop {P : ℚ → Prop} (L : List ℚ) (hP0 : P 0) (hmem : ∀ x ∈ L, P x)
    (i : ℕ) : P (L.getD i 0) := by
  rcases Nat.lt_or_ge i L.length with hlt | hge
  · rw [List.getD_eq_getElem _ _ hlt]
    exact hmem _ (List.getElem_mem _)
  · rw [List.getD_eq_default _ _ hge]
    exact hP0

lemma calculate_bar_magnitudes_mem (O : FftOracle) (norm : ℕ → ℚ)
    (fft_size num_bars : ℕ) (sample_rate sensitivity : ℚ)
    (hn : ∀ k, 0 ≤ norm k) (hk : 0 ≤ sensitivity) :
    ∀ x ∈ calculate_bar_magnitudes O norm fft_size num_bars sample_rate sensitivity,
      0 ≤ x ∧ x ≤ 1 := by
  unfold calculate_bar_magnitudes
  refine mirror_fold_mem _ _ _ _ ?_ ?_
  · intro x hx
    rw [List.eq_of_mem_replicate hx]
    norm_num
  · intro i
    refine @getD_prop (fun q => 0 ≤ q ∧ q ≤ 1) _ (by norm_num) ?_ i
    intro x hx
    rcases List.mem_map.1 hx with ⟨bar, _, hbar⟩
    rw [← hbar]
    dsimp only
    constructor
    · refine le_min ?_ (by norm_num)
      refine mul_nonneg (mul_nonneg ?_ (by norm_num)) hk
      refine div_nonneg ?_ (by positivity)
      refine List.sum_nonneg ?_
      intro y hy
      rcases List.mem_map.1 hy with ⟨k, _, hk2⟩
      rw [← hk2]; exact hn k
    · exact min_le_right _ _

/-- C4: on any sample block, with smoothing in [0, 1], sensitivity
nonnegative, and the persisted previous magnitudes a num_bars-length list
of values in [0, 1] (the invariant maintained by new and process), process
returns a frequencies list of length exactly num_bars with every element in
[0, 1].  FFT bin magnitudes are nonnegative (they are complex norms), which
is the hnorm hypothesis on the oracle. -/
theorem process_frequencies_bounds (O : FftOracle) (a : FrequencyAnalyzer)
    (samples : List ℚ)
    (hs0 : 0 ≤ a.smoothing) (hs1 : a.smoothing ≤ 1) (hk : 0 ≤ a.sensitivity)
    (hlen : a.previous_magnitudes.length = a.num_bars)
    (hprev : ∀ x ∈ a.previous_magnitudes, 0 ≤ x ∧ x ≤ 1)
    (hnorm : ∀ buf k, 0 ≤ O.fftNorm buf k) :
    ((FrequencyAnalyzer.process O a samples).1.frequencies).length = a.num_bars ∧
    ∀ x ∈ (FrequencyAnalyzer.process O a samples).1.frequencies, 0 ≤ x ∧ x ≤ 1 := by
  have hrawlen : (rawMagnitudes O a samples).length = a.num_bars :=
    calculate_bar_magnitudes_length _ _ _ _ _ _
  constructor
  · show (List.zipWith _ (rawMagnitudes O a samples) a.previous_magnitudes).length = _
    rw [List.length_zipWith, hrawlen, hlen, Nat.min_self]
  · intro x hx
    have hx' : x ∈ List.zipWith
        (fun new old => old * a.smoothing + new * (1 - a.smoothing))
        (rawMagnitudes O a samples) a.previous_magnitudes := hx
    obtain ⟨new, hnew, old, hold, rfl⟩ := mem_zipWith hx'
    have hb1 : 0 ≤ new ∧ new ≤ 1 :=
      calculate_bar_magnitudes_mem _ _ _ _ _ _ (hnorm _) hk new hnew
    have hb2 : 0 ≤ old ∧ old ≤ 1 := hprev old hold
    constructor
    · have h1 : 0 ≤ old * a.smoothing := mul_nonneg hb2.1 hs0
      have h2 : 0 ≤ new * (1 - a.smoothing) := mul_nonneg hb1.1 (by linarith)
      linarith
    · have h1 : old * a.smoothing ≤ a.smoothing := by nlinarith [hb2.2, hs0]
      have h2 : new * (1 - a.smoothing) ≤ 1 - a.smoothing := by nlinarith [hb1.2, hs1]
      linarith

/-- Witness for C4: a 2-bar analyzer with previous magnitudes [0, 1] and
the all-zero FFT oracle on the empty block. -/
theorem process_frequencies_bounds_witness :
    ((FrequencyAnalyzer.process zeroOracle
      { fft_size := 8, num_bars := 2, sample_rate := 8, smoothing := 1/2,
        sensitivity := 1, previous_magnitudes := [0, 1] } []).1.frequencies).length = 2 ∧
    ∀ x ∈ (FrequencyAnalyzer.process zeroOracle
      { fft_size := 8, num_bars := 2, sample_rate := 8, smoothing := 1/2,
        sensitivity := 1, previous_magnitudes := [0, 1] } []).1.frequencies,
      0 ≤ x ∧ x ≤ 1 :=
  process_frequencies_bounds zeroOracle _ [] (by norm_num) (by norm_num)
    (by norm_num) rfl
    (by with_unfolding_all decide)
    (fun _ _ => le_refl 0)

/-- The dots style at zero bar width and spacing, for the C9 counterexample. -/
def dotsZeroParams : RenderParams :=
  { style := 3, bar_width := 0, bar_spacing := 0, mirror := false,
    reverse_mirror := false, opacity := 1, color_scheme := whiteCS,
    waveform := [], spectrogram_history := [], text_config := noTextTC }

set_option maxRecDepth 8000 in
/-- C9 counterexample: with bar_width + bar_spacing = 0 the layout is still
some (slot_width 0, all bars overlapping at width / 2), and the dots style
clamps its dot radius to a minimum of 2, so it still paints: on a fresh 4x4
canvas with one full-scale frequency, the alpha byte of pixel (2, 1)
changes from 0 to 255. -/
theorem render_bars_zero_slot_counterexample :
    (render_bars oracleT (Canvas.new 4 4) [1] dotsZeroParams).data ((1 * 4 + 2) * 4 + 3)
      ≠ (Canvas.new 4 4).data ((1 * 4 + 2) * 4 + 3) := by
  with_unfolding_all decide

/-- C9 amended: if bar_width + bar_spacing = 0, bar drawing degrades to a
no-op for the solid-bar styles 0 (Classic), 1 (Mirrored) and 4 (Blocks),
whose brush loops iterate 0..bar_width: the canvas is returned unchanged.
The other styles clamp their brush sizes to a positive minimum (wave width,
dot radius, oscilloscope thickness, radial thickness) and can still paint,
as the counterexample shows for Dots. -/
theorem render_bars_zero_slot_noop (T : TransOracle) (c : Canvas)
    (freqs : List ℚ) (params : RenderParams)
    (h0 : params.bar_width + params.bar_spacing = 0)
    (hstyle : params.style = 0 ∨ params.style = 1 ∨ params.style = 4) :
    render_bars T c freqs params = c := by
  have hbw : params.bar_width = 0 := by omega
  unfold render_bars
  cases hL : compute_bar_layout c.width c.height freqs params with
  | none => rfl
  | some layout =>
    have hclassic : render_bars_classic c layout params = c := by
      unfold render_bars_classic
      refine foldl_eq_id ?_ _ _
      intro c0 i
      refine foldl_eq_id ?_ _ _
      intro c1 yo
      show (List.range params.bar_width).foldl _ c1 = c1
      rw [hbw]
      rfl
    have hmirrored : render_bars_mirrored c layout params = c := by
      unfold render_bars_mirrored
      refine foldl_eq_id ?_ _ _
      intro c0 i
      refine foldl_eq_id ?_ _ _
      intro c1 yo
      dsimp only
      rw [hbw]
      simp only [List.range_zero, List.foldl_nil, ite_self]
    have hblocks : render_bars_blocks c layout params = c := by
      unfold render_bars_blocks
      refine foldl_eq_id ?_ _ _
      intro c0 i
      dsimp only
      rw [hbw]
      simp only [List.range_zero, List.foldl_nil, ite_self]
      have hsolid : ∀ (l : List ℕ) (cc : Canvas),
          l.foldl (fun (ca : Canvas) (_ : ℕ) => ca) cc = cc :=
        fun l cc => foldl_eq_id (fun _ _ => rfl) l cc
      simp only [hsolid, ite_self]
    rcases hstyle with h | h | h <;> rw [h]
    · exact hclassic
    · exact hmirrored
    · exact hblocks

/-- Witness for C9 amended: the classic style with zero bar width and
spacing leaves a fresh 4x4 canvas unchanged. -/
theorem render_bars_zero_slot_noop_witness :
    render_bars oracleT (Canvas.new 4 4) [1]
      { dotsZeroParams with style := 0 } = Canvas.new 4 4 :=
  render_bars_zero_slot_noop oracleT (Canvas.new 4 4) [1]
    { dotsZeroParams with style := 0 } rfl (Or.inl rfl)

/-!
Frame lemmas for put_pixel and generic data-tracking lemmas for canvas
folds, used to characterise which pixels the classic renderer paints.
-/

lemma put_pixel_dims (c : Canvas) (x y r g b : ℕ) (o : ℚ) :
    (c.put_pixel x y r g b o).width = c.width ∧
    (c.put_pixel x y r g b o).height = c.height ∧
    (c.put_pixel x y r g b o).dataLen = c.dataLen := by
  unfold Canvas.put_pixel
  dsimp only
  split <;> exact ⟨rfl, rfl, rfl⟩

lemma put_pixel_data_outside (c : Canvas) (x y r g b : ℕ) (o : ℚ) (j : ℕ)
    (hj : j < (y * c.width + x) * 4 ∨ (y * c.width + x) * 4 + 3 < j) :
    (c.put_pixel x y r g b o).data j = c.data j := by
  unfold Canvas.put_pixel
  dsimp only
  split
  · dsimp only
    rw [if_neg (by omega), if_neg (by omega), if_neg (by omega), if_neg (by omega)]
  · rfl

lemma put_pixel_data_alpha_or (c : Canvas) (x y r g b : ℕ) (o : ℚ) (j : ℕ)
    (hj : j % 4 = 3) :
    (c.put_pixel x y r g b o).data j = c.data j ∨
    (c.put_pixel x y r g b o).data j = ratToU8 (o * 255) := by
  unfold Canvas.put_pixel
  dsimp only
  split
  · dsimp only
    by_cases h3 : j = (y * c.width + x) * 4 + 3
    · right
      rw [if_neg (by omega), if_neg (by omega), if_neg (by omega), if_pos h3]
    · left
      rw [if_neg (by omega), if_neg (by omega), if_neg (by omega), if_neg h3]
  · exact Or.inl rfl

lemma put_pixel_data_alpha_set (c : Canvas) (x y r g b : ℕ) (o : ℚ)
    (hin : (y * c.width + x) * 4 + 3 < c.dataLen) :
    (c.put_pixel x y r g b o).data ((y * c.width + x) * 4 + 3) = ratToU8 (o * 255) := by
  unfold Canvas.put_pixel
  dsimp only
  rw [if_pos hin]
  dsimp only
  rw [if_neg (by omega), if_neg (by omega), if_neg (by omega), if_pos rfl]

lemma foldl_canvas_pres_data {α} {P : Canvas → Prop} {f : Canvas → α → Canvas}
    {j : ℕ} :
    ∀ (l : List α) (c : Canvas),
      (∀ ca a, a ∈ l → P ca → (f ca a).data j = ca.data j ∧ P (f ca a)) →
      P c → (l.foldl f c).data j = c.data j ∧ P (l.foldl f c) := by
  intro l
  induction l with
  | nil => exact fun c _ hc => ⟨rfl, hc⟩
  | cons a t ih =>
    intro c hstep hc
    rw [List.foldl_cons]
    have h1 := hstep c a (by simp) hc
    have h2 := ih (f c a) (fun ca b hb hca => hstep ca b (by simp [hb]) hca) h1.2
    exact ⟨h2.1.trans h1.1, h2.2⟩

lemma foldl_canvas_or_data {α} {P : Canvas → Prop} {f : Canvas → α → Canvas}
    {j v : ℕ} :
    ∀ (l : List α) (c : Canvas),
      (∀ ca a, a ∈ l → P ca →
        ((f ca a).data j = ca.data j ∨ (f ca a).data j = v) ∧ P (f ca a)) →
      P c → ((l.foldl f c).data j = c.data j ∨ (l.foldl f c).data j = v) ∧
        P (l.foldl f c) := by
  intro l
  induction l with
  | nil => exact fun c _ hc => ⟨Or.inl rfl, hc⟩
  | cons a t ih =>
    intro c hstep hc
    rw [List.foldl_cons]
    have h1 := hstep c a (by simp) hc
    have h2 := ih (f c a) (fun ca b hb hca => hstep ca b (by simp [hb]) hca) h1.2
    refine ⟨?_, h2.2⟩
    rcases h2.1 with h | h
    · rcases h1.1 with h' | h'
      · exact Or.inl (h.trans h')
      · exact Or.inr (h.trans h')
    · exact Or.inr h

lemma foldl_canvas_keep_data {α} {P : Canvas → Prop} {f : Canvas → α → Canvas}
    {j v : ℕ} (l : List α) (c : Canvas)
    (hstep : ∀ ca a, a ∈ l → P ca →
      ((f ca a).data j = ca.data j ∨ (f ca a).data j = v) ∧ P (f ca a))
    (hc : P c) (hv : c.data j = v) :
    (l.foldl f c).data j = v ∧ P (l.foldl f c) := by
  have h := foldl_canvas_or_data l c hstep hc
  refine ⟨?_, h.2⟩
  rcases h.1 with h1 | h1
  · exact h1.trans hv
  · exact h1

lemma foldl_canvas_reach_data {α} {P : Canvas → Prop} {f : Canvas → α → Canvas}
    {j v : ℕ} :
    ∀ (l : List α) (a : α), a ∈ l →
      (∀ ca b, b ∈ l → P ca →
        ((f ca b).data j = ca.data j ∨ (f ca b).data j = v) ∧ P (f ca b)) →
      (∀ ca, P ca → (f ca a).data j = v) →
      ∀ c, P c → (l.foldl f c).data j = v ∧ P (l.foldl f c) := by
  intro l
  induction l with
  | nil => intro a ha; simp at ha
  | cons b t ih =>
    intro a ha hstep hset c hc
    rw [List.foldl_cons]
    rcases List.mem_cons.1 ha with rfl | hat
    · exact foldl_canvas_keep_data t (f c a)
        (fun ca b2 hb2 hca => hstep ca b2 (by simp [hb2]) hca)
        (hstep c a (by simp) hc).2 (hset c hc)
    · exact ih a hat (fun ca b2 hb2 hca => hstep ca b2 (by simp [hb2]) hca) hset
        (f c b) (hstep c b (by simp) hc).2

/-!
The C7 worked example: 8 frequencies alternating 1/10 and 9/10, canvas
80 x 40, style 0 (Classic), bar_width 8, bar_spacing 2, mirrors off, no
text.  layout8 is the layout compute_bar_layout produces for it, and
classicBar / classicRow name the loop bodies of render_bars_classic at
this instance (definitionally equal to the source loops).
-/

def freqs8 : List ℚ := [1/10, 9/10, 1/10, 9/10, 1/10, 9/10, 1/10, 9/10]

def classicParams : RenderParams :=
  { style := 0, bar_width := 8, bar_spacing := 2, mirror := false,
    reverse_mirror := false, opacity := 1, color_scheme := whiteCS,
    waveform := [], spectrogram_history := [], text_config := noTextTC }

def layout8 : BarLayout :=
  { bars_y_start := 0, bars_height := 40, start_x := 0, slot_width := 10,
    displayable := 8, render_frequencies := freqs8 }

def dims80 (c : Canvas) : Prop :=
  c.width = 80 ∧ c.height = 40 ∧ c.dataLen = 12800

def classicRow (i : ℕ) (c1 : Canvas) (y_offset : ℕ) : Canvas :=
  (List.range classicParams.bar_width).foldl (fun c2 bx =>
    if layout8.start_x + i * layout8.slot_width + bx < c2.width ∧
        layout8.bars_y_start + layout8.bars_height - 1 - y_offset < c2.height then
      c2.put_pixel (layout8.start_x + i * layout8.slot_width + bx)
        (layout8.bars_y_start + layout8.bars_height - 1 - y_offset)
        255 255 255 classicParams.opacity
    else c2) c1

def classicBar (c0 : Canvas) (i : ℕ) : Canvas :=
  (List.range (min
    (ratToUsize (layout8.render_frequencies.getD i 0 * (layout8.bars_height : ℚ)))
    layout8.bars_height)).foldl (classicRow i) c0

lemma render_bars_classic_layout8 (c : Canvas) :
    render_bars_classic c layout8 classicParams = (List.range 8).foldl classicBar c := by
  with_unfolding_all rfl

lemma classicRow_or (i y_offset j : ℕ) (hj : j % 4 = 3) :
    ∀ c1, dims80 c1 →
      ((classicRow i c1 y_offset).data j = c1.data j ∨
        (classicRow i c1 y_offset).data j = 255) ∧
      dims80 (classicRow i c1 y_offset) := by
  intro c1 hd
  unfold classicRow
  refine foldl_canvas_or_data _ _ ?_ hd
  intro ca bx _ hca
  obtain ⟨hw, hh, hl⟩ := hca
  try dsimp only
  split
  · refine ⟨?_, ?_⟩
    · rcases put_pixel_data_alpha_or ca _ _ 255 255 255 classicParams.opacity j hj with
        h | h
      · exact Or.inl h
      · right
        rw [h]
        with_unfolding_all decide
    · have hD := put_pixel_dims ca (layout8.start_x + i * layout8.slot_width + bx)
        (layout8.bars_y_start + layout8.bars_height - 1 - y_offset) 255 255 255
        classicParams.opacity
      exact ⟨hD.1.trans hw, hD.2.1.trans hh, hD.2.2.trans hl⟩
  · exact ⟨Or.inl rfl, hw, hh, hl⟩

lemma classicRow_pres (i y_offset j : ℕ)
    (hmiss : ∀ bx ∈ List.range 8,
      j < ((39 - y_offset) * 80 + (i * 10 + bx)) * 4 ∨
      ((39 - y_offset) * 80 + (i * 10 + bx)) * 4 + 3 < j) :
    ∀ c1, dims80 c1 →
      (classicRow i c1 y_offset).data j = c1.data j ∧
      dims80 (classicRow i c1 y_offset) := by
  intro c1 hd
  unfold classicRow
  refine foldl_canvas_pres_data _ _ ?_ hd
  intro ca bx hbx hca
  obtain ⟨hw, hh, hl⟩ := hca
  try dsimp only
  split
  · refine ⟨?_, ?_⟩
    · apply put_pixel_data_outside
      rw [hw]
      have hm := hmiss bx hbx
      simp only [layout8] at *
      omega
    · have hD := put_pixel_dims ca (layout8.start_x + i * layout8.slot_width + bx)
        (layout8.bars_y_start + layout8.bars_height - 1 - y_offset) 255 255 255
        classicParams.opacity
      exact ⟨hD.1.trans hw, hD.2.1.trans hh, hD.2.2.trans hl⟩
  · exact ⟨rfl, hw, hh, hl⟩

lemma classicRow_reach (i bx y_offset : ℕ) (hi : i < 8) (hbx : bx < 8) :
    ∀ c1, dims80 c1 →
      (classicRow i c1 y_offset).data
        (((39 - y_offset) * 80 + (i * 10 + bx)) * 4 + 3) = 255 ∧
      dims80 (classicRow i c1 y_offset) := by
  intro c1 hd
  unfold classicRow
  refine foldl_canvas_reach_data _ bx (List.mem_range.2 hbx) ?_ ?_ c1 hd
  · intro ca bx2 _ hca
    obtain ⟨hw, hh, hl⟩ := hca
    try dsimp only
    split
    · refine ⟨?_, ?_⟩
      · rcases put_pixel_data_alpha_or ca _ _ 255 255 255 classicParams.opacity
          (((39 - y_offset) * 80 + (i * 10 + bx)) * 4 + 3) (by omega) with h | h
        · exact Or.inl h
        · right
          rw [h]
          with_unfolding_all decide
      · have hD := put_pixel_dims ca (layout8.start_x + i * layout8.slot_width + bx2)
          (layout8.bars_y_start + layout8.bars_height - 1 - y_offset) 255 255 255
          classicParams.opacity
        exact ⟨hD.1.trans hw, hD.2.1.trans hh, hD.2.2.trans hl⟩
    · exact ⟨Or.inl rfl, hw, hh, hl⟩
  · intro ca hca
    obtain ⟨hw, hh, hl⟩ := hca
    try dsimp only
    rw [if_pos]
    · have hidx : ((39 - y_offset) * 80 + (i * 10 + bx)) * 4 + 3 =
          ((layout8.bars_y_start + layout8.bars_height - 1 - y_offset) * ca.width +
            (layout8.start_x + i * layout8.slot_width + bx)) * 4 + 3 := by
        rw [hw]
        simp only [layout8]
        omega
      rw [hidx, put_pixel_data_alpha_set]
      · with_unfolding_all decide
      · rw [hw, hl]
        simp only [layout8]
        omega
    · constructor
      · rw [hw]
        simp only [layout8]
        omega
      · rw [hh]
        simp only [layout8]
        omega

lemma classicBar_or (i j : ℕ) (hj : j % 4 = 3) :
    ∀ c0, dims80 c0 →
      ((classicBar c0 i).data j = c0.data j ∨ (classicBar c0 i).data j = 255) ∧
      dims80 (classicBar c0 i) := by
  intro c0 hd
  unfold classicBar
  refine foldl_canvas_or_data _ _ ?_ hd
  intro ca yo _ hca
  exact classicRow_or i yo j hj ca hca

lemma classicBar_pres (i j : ℕ)
    (hmiss : ∀ yo ∈ List.range (min
        (ratToUsize (layout8.render_frequencies.getD i 0 * (layout8.bars_height : ℚ)))
        layout8.bars_height),
      ∀ bx ∈ List.range 8,
        j < ((39 - yo) * 80 + (i * 10 + bx)) * 4 ∨
        ((39 - yo) * 80 + (i * 10 + bx)) * 4 + 3 < j) :
    ∀ c0, dims80 c0 →
      (classicBar c0 i).data j = c0.data j ∧ dims80 (classicBar c0 i) := by
  intro c0 hd
  unfold classicBar
  refine foldl_canvas_pres_data _ _ ?_ hd
  intro ca yo hyo hca
  exact classicRow_pres i yo j (hmiss yo hyo) ca hca

lemma classicBar_reach (i yo bx : ℕ) (hi : i < 8) (hbx : bx < 8)
    (hyo : yo ∈ List.range (min
      (ratToUsize (layout8.render_frequencies.getD i 0 * (layout8.bars_height : ℚ)))
      layout8.bars_height)) :
    ∀ c0, dims80 c0 →
      (classicBar c0 i).data (((39 - yo) * 80 + (i * 10 + bx)) * 4 + 3) = 255 ∧
      dims80 (classicBar c0 i) := by
  intro c0 hd
  unfold classicBar
  refine foldl_canvas_reach_data _ yo hyo ?_ ?_ c0 hd
  · intro ca yo2 _ hca
    exact classicRow_or i yo2 _ (by omega) ca hca
  · intro ca hca
    exact (classicRow_reach i bx yo hi hbx ca hca).1

lemma classic8_pres (j : ℕ)
    (hmiss : ∀ i ∈ List.range 8, ∀ yo ∈ List.range (min
        (ratToUsize (layout8.render_frequencies.getD i 0 * (layout8.bars_height : ℚ)))
        layout8.bars_height),
      ∀ bx ∈ List.range 8,
        j < ((39 - yo) * 80 + (i * 10 + bx)) * 4 ∨
        ((39 - yo) * 80 + (i * 10 + bx)) * 4 + 3 < j) :
    ∀ c, dims80 c → ((List.range 8).foldl classicBar c).data j = c.data j := by
  intro c hd
  refine (foldl_canvas_pres_data _ _ ?_ hd).1
  intro ca i hi hca
  exact classicBar_pres i j (hmiss i hi) ca hca

lemma classic8_reach (i yo bx : ℕ) (hi : i < 8) (hbx : bx < 8)
    (hyo : yo ∈ List.range (min
      (ratToUsize (layout8.render_frequencies.getD i 0 * (layout8.bars_height : ℚ)))
      layout8.bars_height)) :
    ∀ c, dims80 c →
      ((List.range 8).foldl classicBar c).data
        (((39 - yo) * 80 + (i * 10 + bx)) * 4 + 3) = 255 := by
  intro c hd
  refine (foldl_canvas_reach_data _ i (List.mem_range.2 hi) ?_ ?_ c hd).1
  · intro ca i2 _ hca
    exact classicBar_or i2 _ (by omega) ca hca
  · intro ca hca
    exact (classicBar_reach i yo bx hi hbx hyo ca hca).1

/-- C7 counterexample: in the worked example (8 frequencies alternating
1/10 and 9/10, canvas 80 x 40, style 0, bar_width 8, bar_spacing 2, mirror
flags off, no text) the topmost painted row of the 9/10 bars is row 4, not
row 3 as the claim states: a bar of height h paints rows height - h ..
height - 1, and 9/10 * 40 = 36 gives top row 40 - 36 = 4.  On a fresh
canvas, after rendering, the alpha bytes of row 3 across all eight columns
10..17 of the second bar (a 9/10 bar) are still 0 — row 3 is not painted
anywhere in a 9/10 bar since every bar paints the same rows in each of its
columns — while the alpha byte at (10, 4) is 255. -/
theorem classic_example_counterexample :
    (render_bars oracleT (Canvas.new 80 40) freqs8 classicParams).data
      ((3 * 80 + 10) * 4 + 3) = 0 ∧
    (render_bars oracleT (Canvas.new 80 40) freqs8 classicParams).data
      ((3 * 80 + 11) * 4 + 3) = 0 ∧
    (render_bars oracleT (Canvas.new 80 40) freqs8 classicParams).data
      ((3 * 80 + 12) * 4 + 3) = 0 ∧
    (render_bars oracleT (Canvas.new 80 40) freqs8 classicParams).data
      ((3 * 80 + 13) * 4 + 3) = 0 ∧
    (render_bars oracleT (Canvas.new 80 40) freqs8 classicParams).data
      ((3 * 80 + 14) * 4 + 3) = 0 ∧
    (render_bars oracleT (Canvas.new 80 40) freqs8 classicParams).data
      ((3 * 80 + 15) * 4 + 3) = 0 ∧
    (render_bars oracleT (Canvas.new 80 40) freqs8 classicParams).data
      ((3 * 80 + 16) * 4 + 3) = 0 ∧
    (render_bars oracleT (Canvas.new 80 40) freqs8 classicParams).data
      ((3 * 80 + 17) * 4 + 3) = 0 ∧
    (render_bars oracleT (Canvas.new 80 40) freqs8 classicParams).data
      ((4 * 80 + 10) * 4 + 3) = 255 := by
  have h1 : render_bars oracleT (Canvas.new 80 40) freqs8 classicParams =
      render_bars_classic (Canvas.new 80 40) layout8 classicParams := by
    with_unfolding_all rfl
  rw [h1, render_bars_classic_layout8]
  have hd : dims80 (Canvas.new 80 40) := ⟨rfl, rfl, rfl⟩
  refine ⟨?_, ?_, ?_, ?_, ?_, ?_, ?_, ?_, ?_⟩
  · exact (classic8_pres _ (by with_unfolding_all decide) _ hd).trans rfl
  · exact (classic8_pres _ (by with_unfolding_all decide) _ hd).trans rfl
  · exact (classic8_pres _ (by with_unfolding_all decide) _ hd).trans rfl
  · exact (classic8_pres _ (by with_unfolding_all decide) _ hd).trans rfl
  · exact (classic8_pres _ (by with_unfolding_all decide) _ hd).trans rfl
  · exact (classic8_pres _ (by with_unfolding_all decide) _ hd).trans rfl
  · exact (classic8_pres _ (by with_unfolding_all decide) _ hd).trans rfl
  · exact (classic8_pres _ (by with_unfolding_all decide) _ hd).trans rfl
  · rw [show (4 * 80 + 10) * 4 + 3 = ((39 - 35) * 80 + (1 * 10 + 0)) * 4 + 3 by norm_num]
    exact classic8_reach 1 35 0 (by omega) (by omega)
      (by with_unfolding_all decide) _ hd

/-- C7 amended: the worked example yields displayable = 8 (the layout is
layout8, with slot width 10, start_x 0 and the frequencies taken over
unchanged), and rendering paints alternating tall and short bars whose
topmost painted row is row 4 for the 9/10 bars (bar height 36, rows 4..39)
and row 36 for the 1/10 bars (bar height 4, rows 36..39): the alpha byte at
(10, 4) is set and at (10, 3) is not; the alpha byte at (0, 36) is set and
at (0, 35) is not. -/
theorem classic_example_amended :
    compute_bar_layout 80 40 freqs8 classicParams = some layout8 ∧
    (render_bars oracleT (Canvas.new 80 40) freqs8 classicParams).data
      ((4 * 80 + 10) * 4 + 3) = 255 ∧
    (render_bars oracleT (Canvas.new 80 40) freqs8 classicParams).data
      ((3 * 80 + 10) * 4 + 3) = 0 ∧
    (render_bars oracleT (Canvas.new 80 40) freqs8 classicParams).data
      ((36 * 80 + 0) * 4 + 3) = 255 ∧
    (render_bars oracleT (Canvas.new 80 40) freqs8 classicParams).data
      ((35 * 80 + 0) * 4 + 3) = 0 := by
  have h1 : render_bars oracleT (Canvas.new 80 40) freqs8 classicParams =
      render_bars_classic (Canvas.new 80 40) layout8 classicParams := by
    with_unfolding_all rfl
  rw [h1, render_bars_classic_layout8]
  have hd : dims80 (Canvas.new 80 40) := ⟨rfl, rfl, rfl⟩
  refine ⟨by with_unfolding_all rfl, ?_, ?_, ?_, ?_⟩
  · rw [show (4 * 80 + 10) * 4 + 3 = ((39 - 35) * 80 + (1 * 10 + 0)) * 4 + 3 by norm_num]
    exact classic8_reach 1 35 0 (by omega) (by omega)
      (by with_unfolding_all decide) _ hd
  · exact (classic8_pres _ (by with_unfolding_all decide) _ hd).trans rfl
  · rw [show (36 * 80 + 0) * 4 + 3 = ((39 - 3) * 80 + (0 * 10 + 0)) * 4 + 3 by norm_num]
    exact classic8_reach 0 3 0 (by omega) (by omega)
      (by with_unfolding_all decide) _ hd
  · exact (classic8_pres _ (by with_unfolding_all decide) _ hd).trans rfl

/-!
C8 machinery: two canvases with the same dimensions and capacity that agree
on the logical byte region stay in agreement under every rendering
operation, because renderers read the canvas only through its dimensions
and write only through put_pixel (or the equally-shaped direct background
write of the text renderer).
-/

def CanvasAgree (w h len : ℕ) (c1 c2 : Canvas) : Prop :=
  c1.width = w ∧ c1.height = h ∧ c1.dataLen = len ∧
  c2.width = w ∧ c2.height = h ∧ c2.dataLen = len ∧
  ∀ j, j < w * h * 4 → c1.data j = c2.data j

lemma CanvasAgree.put {w h len : ℕ} {c1 c2 : Canvas}
    (hR : CanvasAgree w h len c1 c2) (x y r g b : ℕ) (o : ℚ) :
    CanvasAgree w h len (c1.put_pixel x y r g b o) (c2.put_pixel x y r g b o) := by
  obtain ⟨haw, hah, hal, hbw, hbh, hbl, hd⟩ := hR
  unfold Canvas.put_pixel
  dsimp only
  rw [haw, hal, hbw, hbl]
  by_cases hin : (y * w + x) * 4 + 3 < len
  · rw [if_pos hin, if_pos hin]
    refine ⟨rfl, hah, rfl, rfl, hbh, rfl, ?_⟩
    intro j hj
    dsimp only
    split_ifs <;> first | rfl | exact hd j hj
  · rw [if_neg hin, if_neg hin]
    exact ⟨haw, hah, hal, hbw, hbh, hbl, hd⟩

lemma CanvasAgree.ite_put {w h len : ℕ} {c1 c2 : Canvas} (P : Prop) [Decidable P]
    (x y r g b : ℕ) (o : ℚ) (hR : CanvasAgree w h len c1 c2) :
    CanvasAgree w h len (if P then c1.put_pixel x y r g b o else c1)
      (if P then c2.put_pixel x y r g b o else c2) := by
  by_cases hP : P
  · rw [if_pos hP, if_pos hP]
    exact hR.put x y r g b o
  · rw [if_neg hP, if_neg hP]
    exact hR

lemma CanvasAgree.foldl {α} {w h len : ℕ} {f : Canvas → α → Canvas} :
    ∀ (l : List α),
      (∀ c1 c2 a, a ∈ l → CanvasAgree w h len c1 c2 →
        CanvasAgree w h len (f c1 a) (f c2 a)) →
      ∀ c1 c2, CanvasAgree w h len c1 c2 →
        CanvasAgree w h len (l.foldl f c1) (l.foldl f c2) := by
  intro l
  induction l with
  | nil => exact fun _ c1 c2 hR => hR
  | cons a t ih =>
    intro hf c1 c2 hR
    rw [List.foldl_cons, List.foldl_cons]
    exact ih (fun d1 d2 b hb hd2 => hf d1 d2 b (by simp [hb]) hd2) _ _
      (hf c1 c2 a (by simp) hR)

lemma CanvasAgree.foldl_pair {α β} {w h len : ℕ}
    {f : Canvas × β → α → Canvas × β} :
    ∀ (l : List α),
      (∀ p1 p2 a, a ∈ l → CanvasAgree w h len p1.1 p2.1 → p1.2 = p2.2 →
        CanvasAgree w h len (f p1 a).1 (f p2 a).1 ∧ (f p1 a).2 = (f p2 a).2) →
      ∀ p1 p2, CanvasAgree w h len p1.1 p2.1 → p1.2 = p2.2 →
        CanvasAgree w h len (l.foldl f p1).1 (l.foldl f p2).1 ∧
          (l.foldl f p1).2 = (l.foldl f p2).2 := by
  intro l
  induction l with
  | nil => exact fun _ p1 p2 hR hb => ⟨hR, hb⟩
  | cons a t ih =>
    intro hf p1 p2 hR hb
    rw [List.foldl_cons, List.foldl_cons]
    have h1 := hf p1 p2 a (by simp) hR hb
    exact ih (fun q1 q2 b2 hb2 hq hqb => hf q1 q2 b2 (by simp [hb2]) hq hqb) _ _
      h1.1 h1.2

lemma CanvasAgree.clear {c1 c2 : Canvas} (hw : c1.width = c2.width)
    (hh : c1.height = c2.height) (hl : c1.dataLen = c2.dataLen) :
    CanvasAgree c1.width c1.height c1.dataLen c1.clear c2.clear := by
  refine ⟨rfl, rfl, rfl, hw.symm, hh.symm, hl.symm, ?_⟩
  intro j hj
  show (if j < c1.width * c1.height * 4 then 0 else c1.data j) =
    (if j < c2.width * c2.height * 4 then 0 else c2.data j)
  rw [if_pos hj, if_pos (by rw [← hw, ← hh]; exact hj)]

lemma render_bars_classic_agree (layout : BarLayout) (params : RenderParams)
    {w h len : ℕ} {c1 c2 : Canvas} (hR : CanvasAgree w h len c1 c2) :
    CanvasAgree w h len (render_bars_classic c1 layout params)
      (render_bars_classic c2 layout params) := by
  unfold render_bars_classic
  refine CanvasAgree.foldl _ ?_ _ _ hR
  intro ca cb i _ hR1
  dsimp only
  refine CanvasAgree.foldl _ ?_ _ _ hR1
  intro cc cd yo _ hR2
  dsimp only
  refine CanvasAgree.foldl _ ?_ _ _ hR2
  intro ce cf bx _ hR3
  dsimp only
  rw [hR3.1, hR3.2.1, hR3.2.2.2.1, hR3.2.2.2.2.1]
  exact CanvasAgree.ite_put _ _ _ _ _ _ _ hR3

lemma render_bars_mirrored_agree (layout : BarLayout) (params : RenderParams)
    {w h len : ℕ} {c1 c2 : Canvas} (hR : CanvasAgree w h len c1 c2) :
    CanvasAgree w h len (render_bars_mirrored c1 layout params)
      (render_bars_mirrored c2 layout params) := by
  unfold render_bars_mirrored
  refine CanvasAgree.foldl _ ?_ _ _ hR
  intro ca cb i _ hR1
  dsimp only
  refine CanvasAgree.foldl _ ?_ _ _ hR1
  intro cc cd yo _ hR2
  dsimp only
  have hup : ∀ {ce cf : Canvas}, CanvasAgree w h len ce cf →
      CanvasAgree w h len
        (if layout.bars_y_start ≤ layout.bars_y_start + layout.bars_height / 2 - yo then
          (List.range params.bar_width).foldl (fun cg bx =>
            if layout.start_x + i * layout.slot_width + bx < cg.width ∧
                layout.bars_y_start + layout.bars_height / 2 - yo < cg.height then
              cg.put_pixel (layout.start_x + i * layout.slot_width + bx)
                (layout.bars_y_start + layout.bars_height / 2 - yo)
                ((params.color_scheme.get_color ((i : ℚ) / (layout.displayable : ℚ))
                  ((yo : ℚ) / ((layout.bars_height : ℚ) / 2))).1)
                ((params.color_scheme.get_color ((i : ℚ) / (layout.displayable : ℚ))
                  ((yo : ℚ) / ((layout.bars_height : ℚ) / 2))).2.1)
                ((params.color_scheme.get_color ((i : ℚ) / (layout.displayable : ℚ))
                  ((yo : ℚ) / ((layout.bars_height : ℚ) / 2))).2.2)
                params.opacity
            else cg) ce
        else ce)
        (if layout.bars_y_start ≤ layout.bars_y_start + layout.bars_height / 2 - yo then
          (List.range params.bar_width).foldl (fun cg bx =>
            if layout.start_x + i * layout.slot_width + bx < cg.width ∧
                layout.bars_y_start + layout.bars_height / 2 - yo < cg.height then
              cg.put_pixel (layout.start_x + i * layout.slot_width + bx)
                (layout.bars_y_start + layout.bars_height / 2 - yo)
                ((params.color_scheme.get_color ((i : ℚ) / (layout.displayable : ℚ))
                  ((yo : ℚ) / ((layout.bars_height : ℚ) / 2))).1)
                ((params.color_scheme.get_color ((i : ℚ) / (layout.displayable : ℚ))
                  ((yo : ℚ) / ((layout.bars_height : ℚ) / 2))).2.1)
                ((params.color_scheme.get_color ((i : ℚ) / (layout.displayable : ℚ))
                  ((yo : ℚ) / ((layout.bars_height : ℚ) / 2))).2.2)
                params.opacity
            else cg) cf
        else cf) := by
    intro ce cf hR3
    split
    · refine CanvasAgree.foldl _ ?_ _ _ hR3
      intro cg ch bx _ hR4
      dsimp only
      rw [hR4.1, hR4.2.1, hR4.2.2.2.1, hR4.2.2.2.2.1]
      exact CanvasAgree.ite_put _ _ _ _ _ _ _ hR4
    · exact hR3
  split
  · refine CanvasAgree.foldl _ ?_ _ _ (hup hR2)
    intro cg ch bx _ hR4
    dsimp only
    rw [hR4.1, hR4.2.1, hR4.2.2.2.1, hR4.2.2.2.2.1]
    exact CanvasAgree.ite_put _ _ _ _ _ _ _ hR4
  · exact hup hR2

lemma render_bars_wave_agree (layout : BarLayout) (params : RenderParams)
    {w h len : ℕ} {c1 c2 : Canvas} (hR : CanvasAgree w h len c1 c2) :
    CanvasAgree w h len (render_bars_wave c1 layout params)
      (render_bars_wave c2 layout params) := by
  unfold render_bars_wave
  refine CanvasAgree.foldl _ ?_ _ _ hR
  intro ca cb i _ hR1
  dsimp only
  refine CanvasAgree.foldl _ ?_ _ _ hR1
  intro cc cd off _ hR2
  dsimp only
  rw [hR2.2.1, hR2.2.2.2.2.1]
  split
  · refine CanvasAgree.foldl _ ?_ _ _ hR2
    intro ce cf bx _ hR3
    dsimp only
    rw [hR3.1, hR3.2.2.2.1]
    exact CanvasAgree.ite_put _ _ _ _ _ _ _ hR3
  · exact hR2

lemma render_bars_blocks_agree (layout : BarLayout) (params : RenderParams)
    {w h len : ℕ} {c1 c2 : Canvas} (hR : CanvasAgree w h len c1 c2) :
    CanvasAgree w h len (render_bars_blocks c1 layout params)
      (render_bars_blocks c2 layout params) := by
  unfold render_bars_blocks
  refine CanvasAgree.foldl _ ?_ _ _ hR
  intro ca cb i _ hR1
  dsimp only
  split
  · refine CanvasAgree.foldl _ ?_ _ _ (CanvasAgree.foldl _ ?_ _ _ hR1)
    · intro cc cd fy _ hR2
      dsimp only
      rw [hR2.2.1, hR2.2.2.2.2.1]
      split
      · refine CanvasAgree.foldl _ ?_ _ _ hR2
        intro ce cf bx _ hR3
        dsimp only
        rw [hR3.1, hR3.2.2.2.1]
        exact CanvasAgree.ite_put _ _ _ _ _ _ _ hR3
      · exact hR2
    · intro cc cd yo _ hR2
      dsimp only
      refine CanvasAgree.foldl _ ?_ _ _ hR2
      intro ce cf bx _ hR3
      dsimp only
      rw [hR3.1, hR3.2.1, hR3.2.2.2.1, hR3.2.2.2.2.1]
      exact CanvasAgree.ite_put _ _ _ _ _ _ _ hR3
  · refine CanvasAgree.foldl _ ?_ _ _ hR1
    intro cc cd yo _ hR2
    dsimp only
    refine CanvasAgree.foldl _ ?_ _ _ hR2
    intro ce cf bx _ hR3
    dsimp only
    rw [hR3.1, hR3.2.1, hR3.2.2.2.1, hR3.2.2.2.2.1]
    exact CanvasAgree.ite_put _ _ _ _ _ _ _ hR3

lemma render_bars_spectrogram_agree (layout : BarLayout) (params : RenderParams)
    {w h len : ℕ} {c1 c2 : Canvas} (hR : CanvasAgree w h len c1 c2) :
    CanvasAgree w h len (render_bars_spectrogram c1 layout params)
      (render_bars_spectrogram c2 layout params) := by
  unfold render_bars_spectrogram
  dsimp only
  split
  · exact hR
  · rw [hR.1, hR.2.2.2.1]
    refine CanvasAgree.foldl _ ?_ _ _ hR
    intro ca cb p _ hR1
    dsimp only
    split
    · exact hR1
    · split
      · exact hR1
      · refine CanvasAgree.foldl _ ?_ _ _ hR1
        intro cc cd x _ hR2
        dsimp only
        rw [hR2.1, hR2.2.2.2.1]
        exact hR2.put _ _ _ _ _ _

lemma render_bars_dots_agree (layout : BarLayout) (params : RenderParams)
    {w h len : ℕ} {c1 c2 : Canvas} (hR : CanvasAgree w h len c1 c2) :
    CanvasAgree w h len (render_bars_dots c1 layout params)
      (render_bars_dots c2 layout params) := by
  unfold render_bars_dots
  refine CanvasAgree.foldl _ ?_ _ _ hR
  intro ca cb i _ hR1
  dsimp only
  refine (CanvasAgree.foldl_pair _ ?_ _ _ ?_ ?_).1
  · intro p1 p2 yy _ hRp hb
    obtain ⟨d1, b1⟩ := p1
    obtain ⟨d2, b2⟩ := p2
    dsimp only at hRp hb ⊢
    subst hb
    by_cases hs : b1 = true
    · rw [if_pos hs, if_pos hs]
      exact ⟨hRp, rfl⟩
    · rw [if_neg hs, if_neg hs]
      split
      · exact ⟨hRp, rfl⟩
      · refine ⟨?_, rfl⟩
        dsimp only
        refine CanvasAgree.foldl _ ?_ _ _ hRp
        intro ce cf bx _ hR3
        dsimp only
        rw [hR3.1, hR3.2.1, hR3.2.2.2.1, hR3.2.2.2.2.1]
        exact CanvasAgree.ite_put _ _ _ _ _ _ _ hR3
  · refine CanvasAgree.foldl _ ?_ _ _ hR1
    intro cc cd dy _ hR2
    refine CanvasAgree.foldl _ ?_ _ _ hR2
    intro ce cf dx _ hR3
    dsimp only
    split
    · rw [hR3.1, hR3.2.1, hR3.2.2.2.1, hR3.2.2.2.2.1]
      exact CanvasAgree.ite_put _ _ _ _ _ _ _ hR3
    · exact hR3
  · rfl

lemma render_bars_oscilloscope_agree (layout : BarLayout) (params : RenderParams)
    {w h len : ℕ} {c1 c2 : Canvas} (hR : CanvasAgree w h len c1 c2) :
    CanvasAgree w h len (render_bars_oscilloscope c1 layout params)
      (render_bars_oscilloscope c2 layout params) := by
  unfold render_bars_oscilloscope
  dsimp only
  split
  · exact hR
  · rw [hR.1, hR.2.2.2.1]
    refine (CanvasAgree.foldl_pair _ ?_ _ _ ?_ ?_).1
    · intro p1 p2 x _ hRp hb
      obtain ⟨d1, b1⟩ := p1
      obtain ⟨d2, b2⟩ := p2
      dsimp only at hRp hb ⊢
      subst hb
      rw [hRp.1, hRp.2.2.2.1]
      refine ⟨?_, rfl⟩
      refine CanvasAgree.foldl _ ?_ _ _ hRp
      intro cc cd fy _ hR2
      refine CanvasAgree.foldl _ ?_ _ _ hR2
      intro ce cf t _ hR3
      dsimp only
      rw [hR3.1, hR3.2.1, hR3.2.2.2.1, hR3.2.2.2.2.1]
      exact CanvasAgree.ite_put _ _ _ _ _ _ _ hR3
    · exact hR
    · rfl

lemma render_bars_radial_agree (T : TransOracle) (layout : BarLayout)
    (params : RenderParams) {w h len : ℕ} {c1 c2 : Canvas}
    (hR : CanvasAgree w h len c1 c2) :
    CanvasAgree w h len (render_bars_radial T c1 layout params)
      (render_bars_radial T c2 layout params) := by
  unfold render_bars_radial
  dsimp only
  rw [hR.1, hR.2.2.2.1]
  split
  · exact hR
  · refine CanvasAgree.foldl _ ?_ _ _ (CanvasAgree.foldl _ ?_ _ _ hR)
    · intro ca cb i _ hR1
      dsimp only
      split
      · exact hR1
      · refine CanvasAgree.foldl _ ?_ _ _ hR1
        intro cc cd s _ hR2
        refine CanvasAgree.foldl _ ?_ _ _ hR2
        intro ce cf t _ hR3
        dsimp only
        rw [hR3.1, hR3.2.1, hR3.2.2.2.1, hR3.2.2.2.2.1]
        exact CanvasAgree.ite_put _ _ _ _ _ _ _ hR3
    · intro ca cb step _ hR1
      dsimp only
      refine CanvasAgree.foldl _ ?_ _ _ hR1
      intro cc cd t _ hR2
      dsimp only
      rw [hR2.1, hR2.2.1, hR2.2.2.2.1, hR2.2.2.2.2.1]
      exact CanvasAgree.ite_put _ _ _ _ _ _ _ hR2

lemma render_bars_agree (T : TransOracle) (freqs : List ℚ) (params : RenderParams)
    {w h len : ℕ} {c1 c2 : Canvas} (hR : CanvasAgree w h len c1 c2) :
    CanvasAgree w h len (render_bars T c1 freqs params)
      (render_bars T c2 freqs params) := by
  unfold render_bars
  rw [hR.1, hR.2.1, hR.2.2.2.1, hR.2.2.2.2.1]
  cases compute_bar_layout w h freqs params with
  | none => exact hR
  | some layout =>
    rcases params.style with _ | _ | _ | _ | _ | _ | _ | _ | n
    · exact render_bars_classic_agree layout params hR
    · exact render_bars_mirrored_agree layout params hR
    · exact render_bars_wave_agree layout params hR
    · exact render_bars_dots_agree layout params hR
    · exact render_bars_blocks_agree layout params hR
    · exact render_bars_oscilloscope_agree layout params hR
    · exact render_bars_spectrogram_agree layout params hR
    · exact render_bars_radial_agree T layout params hR
    · exact render_bars_classic_agree layout params hR

lemma render_char_agree (x y : ℕ) (ch : Char) (r g b scale : ℕ) (o : ℚ)
    {w h len : ℕ} {c1 c2 : Canvas} (hR : CanvasAgree w h len c1 c2) :
    CanvasAgree w h len (render_char c1 x y ch r g b scale o)
      (render_char c2 x y ch r g b scale o) := by
  unfold render_char
  cases get_char_bitmap ch with
  | none => exact hR
  | some bm =>
    refine CanvasAgree.foldl _ ?_ _ _ hR
    intro ca cb p _ hR1
    dsimp only
    refine CanvasAgree.foldl _ ?_ _ _ hR1
    intro cc cd col _ hR2
    dsimp only
    split
    · refine CanvasAgree.foldl _ ?_ _ _ hR2
      intro ce cf sy _ hR3
      refine CanvasAgree.foldl _ ?_ _ _ hR3
      intro cg ch2 sx _ hR4
      dsimp only
      rw [hR4.1, hR4.2.1, hR4.2.2.2.1, hR4.2.2.2.2.1]
      exact CanvasAgree.ite_put _ _ _ _ _ _ _ hR4
    · exact hR2

lemma draw_text_char_agree (width char_width : ℕ) (fs : FontStyle)
    (char_x char_y : ℕ) (ch : Char) (rgb : ℕ × ℕ × ℕ) (scale : ℕ) (o : ℚ)
    {w h len : ℕ} {c1 c2 : Canvas} (hR : CanvasAgree w h len c1 c2) :
    CanvasAgree w h len
      (draw_text_char c1 width char_width fs char_x char_y ch rgb scale o)
      (draw_text_char c2 width char_width fs char_x char_y ch rgb scale o) := by
  unfold draw_text_char
  split
  · exact hR
  · cases fs
    · exact render_char_agree _ _ _ _ _ _ _ _ hR
    · exact render_char_agree _ _ _ _ _ _ _ _
        (render_char_agree _ _ _ _ _ _ _ _
          (render_char_agree _ _ _ _ _ _ _ _ hR))
    · exact render_char_agree _ _ _ _ _ _ _ _ hR
    · refine render_char_agree _ _ _ _ _ _ _ _ (CanvasAgree.foldl _ ?_ _ _ hR)
      intro cc cd ox _ hRx
      refine CanvasAgree.foldl _ ?_ _ _ hRx
      intro ce cf oy _ hRy
      dsimp only
      split
      · exact render_char_agree _ _ _ _ _ _ _ _ hRy
      · exact hRy

lemma render_text_body_agree (T : TransOracle) (frame : FrameData)
    (params : RenderParams) {w h len : ℕ} {c1 c2 : Canvas}
    (hR : CanvasAgree w h len c1 c2) :
    CanvasAgree w h len (render_text_body T c1 frame params)
      (render_text_body T c2 frame params) := by
  unfold render_text_body
  rw [hR.1, hR.2.1, hR.2.2.2.1, hR.2.2.2.2.1]
  refine CanvasAgree.foldl _ ?_ _ _ ?_
  · intro ca cb p _ hR1
    exact draw_text_char_agree _ _ _ _ _ _ _ _ _ hR1
  · cases params.text_config.background_color with
    | none => exact hR
    | some bg =>
      refine CanvasAgree.foldl _ ?_ _ _ hR
      intro ca cb py _ hR1
      refine CanvasAgree.foldl _ ?_ _ _ hR1
      intro cc cd px _ hR2
      dsimp only
      rw [hR2.2.2.1, hR2.2.2.2.2.2.1]
      split
      · refine ⟨hR2.1, hR2.2.1, rfl, hR2.2.2.2.1, hR2.2.2.2.2.1, rfl, ?_⟩
        intro j hj
        dsimp only
        split_ifs <;> first | rfl | exact hR2.2.2.2.2.2.2 j hj
      · exact hR2

lemma render_text_agree (T : TransOracle) (frame : FrameData)
    (params : RenderParams) {w h len : ℕ} {c1 c2 : Canvas}
    (hR : CanvasAgree w h len c1 c2) :
    CanvasAgree w h len (render_text T c1 frame params)
      (render_text T c2 frame params) := by
  unfold render_text
  split
  · exact hR
  · exact render_text_body_agree T frame params hR

/-- C8: render_frame fully overwrites the canvas.  For every FrameData and
RenderParams, and any two canvases with equal dimensions and capacity (in
particular the same canvas before and after arbitrary prior drawing), the
logical pixel region after render_frame is identical: the output is a
function of the inputs alone, independent of the canvas's prior contents.
Hence after two calls with different styles but identical frame data, no
pixel written only by the first call's style remains: the canvas is cleared
and redrawn deterministically each call. -/
theorem render_frame_full_overwrite (T : TransOracle) (frame : FrameData)
    (params : RenderParams) (c1 c2 : Canvas) (hw : c1.width = c2.width)
    (hh : c1.height = c2.height) (hl : c1.dataLen = c2.dataLen) :
    ∀ j, j < c1.width * c1.height * 4 →
      (render_frame T c1 frame params).data j =
        (render_frame T c2 frame params).data j := by
  intro j hj
  have h0 : CanvasAgree c1.width c1.height c1.dataLen c1.clear c2.clear :=
    CanvasAgree.clear hw hh hl
  have h1 := render_bars_agree T frame.frequencies params h0
  have h2 := render_text_agree T frame params h1
  exact h2.2.2.2.2.2.2 j hj

/-- An empty frame for the C8 witness. -/
def emptyFrame : FrameData :=
  { frequencies := [], intensity := 0, track_title := none,
    track_artist := none, time := 0 }

/-- Witness for C8: two 1x1 canvases whose buffers differ everywhere (all 0
vs all 7) agree on byte 0 after render_frame. -/
theorem render_frame_full_overwrite_witness :
    (render_frame oracleT (Canvas.new 1 1) emptyFrame dotsZeroParams).data 0 =
      (render_frame oracleT (Canvas.mk (fun _ => 7) 4 1 1) emptyFrame
        dotsZeroParams).data 0 :=
  render_frame_full_overwrite oracleT emptyFrame dotsZeroParams
    (Canvas.new 1 1) (Canvas.mk (fun _ => 7) 4 1 1) rfl rfl rfl 0
    (by with_unfolding_all decide)
